import Mathlib

/-!
Verification of the stratified-sampling core of the Sampling-Tool repository
(`src/main.py`): the filter/rule predicate model (`DimensionalFilter`,
`SamplingRule`), the type-detection heuristics (`DataHandler.detect_column_type`),
the stratified sampling engine (`DataHandler.generate_stratified_sample`) and
configuration persistence (`save_configuration` / `load_configuration`).

The embedding is shallow: Python dicts become association lists, `datetime`
values become a calendar-date structure, floats become `Rat` (comparisons in
the claims involve both sides of an equivalence using the same arithmetic, so
exact rationals preserve the compared booleans), and the `random.sample` call
is abstracted as a selection function `pick` constrained by the properties
`random.sample` guarantees (it returns elements of its population, exactly `k`
of them).
-/

set_option maxHeartbeats 1600000

namespace SamplingTool

/-- A calendar date, modelling the Python `datetime` values the tool stores in
filter configurations (always at midnight, so the time part is irrelevant). -/
structure Date where
  year : Nat
  month : Nat
  day : Nat
deriving DecidableEq, Repr

/-- Gregorian leap-year rule, as implemented by Python's `datetime`. -/
def isLeapYear (y : Nat) : Bool :=
  y % 4 == 0 && (y % 100 != 0 || y % 400 == 0)

/-- Number of days in a month, as validated by the `datetime` constructor. -/
def daysInMonth (y m : Nat) : Nat :=
  if m == 2 then (if isLeapYear y then 29 else 28)
  else if m == 4 || m == 6 || m == 9 || m == 11 then 30
  else 31

/-- A date that Python's `datetime` can represent: year 1..9999 and a real
calendar day. -/
def Date.ValidB (d : Date) : Bool :=
  1 ≤ d.year && d.year ≤ 9999 && 1 ≤ d.month && d.month ≤ 12 &&
    1 ≤ d.day && d.day ≤ daysInMonth d.year d.month

/-- `datetime < datetime` (lexicographic on year, month, day; the tool's dates
all sit at midnight so the time components never decide a comparison). -/
def Date.ltB (a b : Date) : Bool :=
  a.year < b.year ||
    (a.year == b.year && (a.month < b.month ||
      (a.month == b.month && a.day < b.day)))

/-- ASCII decimal digit test (code points 48–57). -/
def isDigitChar (c : Char) : Bool := 48 ≤ c.toNat && c.toNat ≤ 57

/-- Numeric value of a digit character. -/
def digitVal (c : Char) : Nat := c.toNat - 48

/-- The digit character for `n < 10`. -/
def digitChar (n : Nat) : Char := Char.ofNat (48 + n)

/-- Value of a digit string, most significant digit first. -/
def natOfDigits (l : List Char) : Nat := l.foldl (fun n c => 10 * n + digitVal c) 0

/-- All characters are ASCII digits. -/
def allDigits (l : List Char) : Bool := l.all isDigitChar

/-- Two zero-padded decimal digits of `n % 100` (the `%m` / `%d` rendering of
`strftime`). -/
def pad2 (n : Nat) : List Char := [digitChar (n / 10 % 10), digitChar (n % 10)]

/-- Four zero-padded decimal digits of `n % 10000` (the `%Y` rendering of
`strftime` for years in 1000..9999; Python does not zero-pad smaller years on
Linux, which is why the persistence theorems restrict to years ≥ 1000). -/
def pad4 (n : Nat) : List Char :=
  [digitChar (n / 1000 % 10), digitChar (n / 100 % 10),
   digitChar (n / 10 % 10), digitChar (n % 10)]

/-- `date.strftime('%Y-%m-%d')` as a character list. -/
def fmtISOChars (d : Date) : List Char :=
  pad4 d.year ++ '-' :: (pad2 d.month ++ '-' :: pad2 d.day)

/-- `date.strftime('%Y-%m-%d')`. -/
def fmtISO (d : Date) : String := ⟨fmtISOChars d⟩

/-- Split a character list on a separator character, like `str.split(sep)`:
`splitOnChar '-' "a-b".data = ["a".data, "b".data]`. -/
def splitOnChar (sep : Char) : List Char → List (List Char)
  | [] => [[]]
  | c :: rest =>
    match splitOnChar sep rest with
    | [] => [[]]
    | f :: fs => if c == sep then [] :: f :: fs else (c :: f) :: fs

/-- Field order of one of the tool's nine date formats. -/
inductive FieldOrder where
  | ymd
  | dmy
  | mdy
deriving DecidableEq, Repr

/-- One `strptime` format of the shape used by the tool: three numeric fields
separated by a fixed separator character. -/
structure DateFmt where
  ord : FieldOrder
  sep : Char
deriving DecidableEq, Repr

/-- The fixed nine-format list `date_formats` of `detect_column_type`
(`%Y-%m-%d, %d-%m-%Y, %d/%m/%Y, %d.%m.%Y, %Y/%m/%d, %Y.%m.%d, %m/%d/%Y,
%m-%d-%Y, %m.%d.%Y`). -/
def dateFormats : List DateFmt :=
  [⟨.ymd, '-'⟩, ⟨.dmy, '-'⟩, ⟨.dmy, '/'⟩, ⟨.dmy, '.'⟩,
   ⟨.ymd, '/'⟩, ⟨.ymd, '.'⟩, ⟨.mdy, '/'⟩, ⟨.mdy, '-'⟩, ⟨.mdy, '.'⟩]

/-- A 1-or-2-digit `strptime` field with value in `1..mx` (CPython's `%m`/`%d`
regexes accept one or two digits and bound the value; `datetime` then checks
day-of-month against the calendar separately). -/
def parseField2 (mx : Nat) (cs : List Char) : Option Nat :=
  if cs.length == 0 || cs.length > 2 || !allDigits cs then none
  else
    let v := natOfDigits cs
    if 1 ≤ v && v ≤ mx then some v else none

/-- `datetime.strptime(s, fmt)` for one of the tool's nine formats: the year
field is exactly four digits (CPython's `%Y` regex), month/day are one or two
digits, the match must cover the whole string, and the resulting date must be
a real calendar date with year ≥ 1. Non-ASCII digits are not modelled. -/
def parseYMD (fmt : DateFmt) (cs : List Char) : Option Date :=
  match splitOnChar fmt.sep cs with
  | [a, b, c] =>
    let fields : List Char × List Char × List Char :=
      match fmt.ord with
      | .ymd => (a, b, c)
      | .dmy => (c, b, a)
      | .mdy => (c, a, b)
    let ys := fields.1
    let ms := fields.2.1
    let ds := fields.2.2
    if ys.length == 4 && allDigits ys then
      let y := natOfDigits ys
      match parseField2 12 ms, parseField2 31 ds with
      | some m, some d =>
        if 1 ≤ y && d ≤ daysInMonth y m then some ⟨y, m, d⟩ else none
      | _, _ => none
    else none
  | _ => none

/-- `datetime.strptime(value, '%Y-%m-%d')`, the parse used by
`SamplingRule.matches` and `load_configuration`. -/
def parseDateISO (s : String) : Option Date := parseYMD ⟨.ymd, '-'⟩ s.data

/-! ## Row values and Python value helpers -/

/-- A value held in a row cell: Python `None`, a string, a number (`int` or
`float`, modelled exactly as a rational; every comparison the claims mention
is performed identically on both sides of the compared programs, so exact
arithmetic preserves the compared booleans), or a `datetime`. -/
inductive Value where
  | null
  | str (s : String)
  | num (q : Rat)
  | date (d : Date)
deriving DecidableEq, Repr

/-- Python `str(value)` as applied by `SamplingRule.matches` to row values.
`str(None) = "None"`; the renderings of numbers and datetimes are simplified
(Python float `repr` is not reproduced digit-for-digit) — the theorems only
ever stringify `None` and strings. -/
def pyStr : Value → String
  | .null => "None"
  | .str s => s
  | .num q => toString q
  | .date d => fmtISO d ++ " 00:00:00"

/-- Whitespace stripped by Python's `float()` around a numeric literal. -/
def isWsChar (c : Char) : Bool :=
  c == ' ' || c == '\t' || c == '\n' || c == '\r'

/-- Python `str.lower()` on one character. Python lowercases the whole
Unicode range; this models it exactly on the Basic Latin and Latin-1 blocks
(ASCII `A`–`Z` and the Latin-1 uppercase letters `À`–`Þ` except `×` map to
their lowercase forms 32 code points higher) and as the identity beyond,
where no statement of this development evaluates it. Note this is *not* the
ASCII-only `Char.toLower` that models SQLite's `LIKE` folding: the two differ
on Latin-1 letters such as `Ü`, which is exactly the in-memory/SQL divergence
exhibited in the C3 counterexample. -/
def pyLowerChar (c : Char) : Char :=
  let n := c.toNat
  if n ≥ 65 ∧ n ≤ 90 then Char.ofNat (n + 32)
  else if n ≥ 0xC0 ∧ n ≤ 0xDE ∧ n ≠ 0xD7 then Char.ofNat (n + 32)
  else c

/-- `str.lower()` as used by `SamplingRule.matches` (line 176), applied
characterwise. -/
def lowerChars (l : List Char) : List Char := l.map pyLowerChar

/-- The character is ASCII. On ASCII text Python's `str.lower()` and SQLite's
`LIKE` case folding agree; outside it they do not. -/
def isAsciiChar (c : Char) : Bool := decide (c.toNat < 128)

/-- Every character is ASCII. -/
def asciiOnly (l : List Char) : Bool := l.all isAsciiChar

/-- `a` is a prefix of `b` (character lists). -/
def isPrefixL : List Char → List Char → Bool
  | [], _ => true
  | _ :: _, [] => false
  | a :: as, b :: bs => a == b && isPrefixL as bs

/-- `needle in hay` for strings, as character lists. -/
def isInfixL (needle hay : List Char) : Bool :=
  match hay with
  | [] => needle.isEmpty
  | _ :: rest => isPrefixL needle hay || isInfixL needle rest

/-- Parse an optional sign, returning the sign and the rest. -/
def parseSign : List Char → Int × List Char
  | '+' :: r => (1, r)
  | '-' :: r => (-1, r)
  | cs => (1, cs)

/-- Rational value of `ip . fp × 10^e`, built with integer arithmetic (the
value of the literal, exactly). -/
def decimalVal (sign : Int) (ip fp : List Char) (e : Int) : Rat :=
  let m : Int := sign * (natOfDigits ip * 10 ^ fp.length + natOfDigits fp)
  if 0 ≤ e then mkRat (m * 10 ^ e.toNat) (10 ^ fp.length)
  else mkRat m (10 ^ fp.length * 10 ^ e.natAbs)

/-- The exponent part of a float literal: `e`/`E`, optional sign, at least one
digit, consuming the rest of the input. -/
def parseExpPart : List Char → Option Int
  | [] => some 0
  | c :: r =>
    if c == 'e' || c == 'E' then
      let sr := parseSign r
      let ds := sr.2
      if !ds.isEmpty && allDigits ds then some (sr.1 * (natOfDigits ds : Int)) else none
    else none

/-- Python `float(s)` on a stripped literal: optional sign, digits with an
optional decimal point (at least one digit overall), optional exponent.
`inf`/`nan` and digit-group underscores are not modelled — no theorem relies
on those inputs. `none` models the `ValueError` the callers catch. -/
def pyFloatCore (cs : List Char) : Option Rat :=
  let sr := parseSign cs
  let ip := sr.2.takeWhile isDigitChar
  let rest := sr.2.drop ip.length
  match rest with
  | '.' :: r =>
    let fp := r.takeWhile isDigitChar
    let rest2 := r.drop fp.length
    if ip.isEmpty && fp.isEmpty then none
    else
      match parseExpPart rest2 with
      | some e => some (decimalVal sr.1 ip fp e)
      | none => none
  | _ =>
    if ip.isEmpty then none
    else
      match parseExpPart rest with
      | some e => some (decimalVal sr.1 ip [] e)
      | none => none

/-- Python `float(s)`: strips surrounding whitespace, then parses the literal. -/
def pyFloat? (s : String) : Option Rat :=
  pyFloatCore (((s.data.dropWhile isWsChar).reverse.dropWhile isWsChar).reverse)

/-- SQLite's text-to-real conversion (`sqlite3AtoF`), used by
`CAST(x AS REAL)`: skip leading whitespace, read an optional sign and the
longest numeric prefix (digits, optional decimal point, optional exponent with
digits), ignore any trailing junk, and yield `0.0` when no digits occur. -/
def sqliteAtof (cs0 : List Char) : Rat :=
  let cs := cs0.dropWhile isWsChar
  let sr := parseSign cs
  let ip := sr.2.takeWhile isDigitChar
  let rest := sr.2.drop ip.length
  let fpRest : List Char × List Char :=
    match rest with
    | '.' :: r => (r.takeWhile isDigitChar, r.drop (r.takeWhile isDigitChar).length)
    | _ => ([], rest)
  let fp := fpRest.1
  if ip.isEmpty && fp.isEmpty then 0
  else
    let e : Int :=
      match fpRest.2 with
      | c :: r =>
        if c == 'e' || c == 'E' then
          let er := parseSign r
          let ds := er.2.takeWhile isDigitChar
          if ds.isEmpty then 0 else er.1 * (natOfDigits ds : Int)
        else 0
      | [] => 0
    decimalVal sr.1 ip fp e

/-- SQLite `memcmp`-style comparison `a ≤ b` of two text values under the
default BINARY collation (byte order; on the ASCII text the theorems use,
code-point order coincides with byte order). -/
def bytesLe : List Char → List Char → Bool
  | [], _ => true
  | _ :: _, [] => false
  | a :: as, b :: bs =>
    a.toNat < b.toNat || (a.toNat == b.toNat && bytesLe as bs)

/-- Python string comparison `a < b` (lexicographic by code point), used when
`matches` compares two strings. -/
def strLtL : List Char → List Char → Bool
  | [], [] => false
  | [], _ :: _ => true
  | _ :: _, [] => false
  | a :: as, b :: bs =>
    a.toNat < b.toNat || (a.toNat == b.toNat && strLtL as bs)

/-! ## The filter configuration dictionary -/

/-- A value stored in a `filter_config` dict: a string, a list of strings
(TEXT `values`), a number (`min`/`max`) or a `datetime` (`from`/`to`). -/
inductive ConfigVal where
  | str (s : String)
  | strList (l : List String)
  | num (q : Rat)
  | date (d : Date)
deriving DecidableEq, Repr

/-- A Python dict as the tool uses it for `filter_config`: insertion-ordered
key/value pairs. -/
abbrev FilterConfig := List (String × ConfigVal)

/-- `d.get(k)` (first binding wins, as in a dict, whose keys are unique). -/
def fcGet (c : FilterConfig) (k : String) : Option ConfigVal :=
  match c with
  | [] => none
  | (k2, v) :: rest => if k2 == k then some v else fcGet rest k

/-- `d[k] = v`: replace the binding in place, or append a new one. -/
def fcSet (c : FilterConfig) (k : String) (v : ConfigVal) : FilterConfig :=
  match c with
  | [] => [(k, v)]
  | (k2, v2) :: rest => if k2 == k then (k, v) :: rest else (k2, v2) :: fcSet rest k v

/-- Python truthiness of a config value (`if date_from:`-style tests):
empty strings, empty lists and zero are falsy; datetimes are always truthy. -/
def ConfigVal.truthy : ConfigVal → Bool
  | .str s => !s.isEmpty
  | .strList l => !l.isEmpty
  | .num q => q != 0
  | .date _ => true

/-- The config value as a row-level value for Python comparisons; a list
compares like `None` (any ordering comparison with it raises `TypeError`). -/
def ConfigVal.toValue : ConfigVal → Value
  | .str s => .str s
  | .num q => .num q
  | .date d => .date d
  | .strList _ => .null

/-- `filter_config.get('type', 'equals')`. -/
def cfgTypeTag (c : FilterConfig) : ConfigVal := (fcGet c "type").getD (.str "equals")

/-- `filter_config.get('values', [])`. A non-list under `'values'` is not
modelled (the UI and `load_configuration` only ever store lists there). -/
def cfgValues (c : FilterConfig) : List String :=
  match fcGet c "values" with
  | some (.strList l) => l
  | _ => []

/-- `filter_config.get('pattern', '')`. A non-string under `'pattern'` is not
modelled. -/
def cfgPattern (c : FilterConfig) : String :=
  match fcGet c "pattern" with
  | some (.str s) => s
  | _ => ""

/-- Python `a < b` on row-level values; `none` models `TypeError` (caught by
the bare `except` in `matches`, which then returns `False`). -/
def pyLt? : Value → Value → Option Bool
  | .num a, .num b => some (decide (a < b))
  | .date a, .date b => some (a.ltB b)
  | .str a, .str b => some (strLtL a.data b.data)
  | _, _ => none

/-! ## Column types, rows, filters and rules -/

/-- `ColumnType.TEXT` — the class is a namespace of string constants. -/
def ColumnType.TEXT : String := "text"

/-- `ColumnType.NUMBER`. -/
def ColumnType.NUMBER : String := "number"

/-- `ColumnType.DATE`. -/
def ColumnType.DATE : String := "date"

/-- `ColumnType.UNKNOWN`. -/
def ColumnType.UNKNOWN : String := "unknown"

/-- A data row: a dict from column name to value. -/
abbrev Row := List (String × Value)

/-- `row.get(column)`: the value under the column, `None` when absent. -/
def Row.get (row : Row) (k : String) : Value :=
  match row with
  | [] => .null
  | (k2, v) :: rest => if k2 == k then v else Row.get rest k

/-- `row[k] = v` on a row dict (used for the `'_rule_name'` tag). -/
def Row.set (row : Row) (k : String) (v : Value) : Row :=
  match row with
  | [] => [(k, v)]
  | (k2, v2) :: rest => if k2 == k then (k, v) :: rest else (k2, v2) :: Row.set rest k v

/-- `DimensionalFilter`: a global filter for a single column. -/
structure DimensionalFilter where
  column : String := ""
  column_type : String := ColumnType.TEXT
  filter_config : FilterConfig := []
deriving DecidableEq, Repr

/-- `SamplingRule`: a sampling rule with a quota. -/
structure SamplingRule where
  name : String := ""
  column : String := ""
  column_type : String := ColumnType.TEXT
  filter_config : FilterConfig := []
  sample_count : Nat := 5
deriving DecidableEq, Repr

/-- The `max` half of the NUMBER range check of `matches`:
`if max_val is not None and num_value > max_val: return False`, where a
`TypeError` in the comparison is caught and also yields `False`. -/
def rangeMaxNum (c : FilterConfig) (v : Value) : Bool :=
  match fcGet c "max" with
  | some mv =>
    match pyLt? mv.toValue v with
    | some true => false
    | some false => true
    | none => false
  | none => true

/-- The NUMBER range check of `matches` (lines 183–189): `min` first, then
`max`; a comparison `TypeError` yields `False` via the bare `except`. -/
def rangeOkNum (c : FilterConfig) (v : Value) : Bool :=
  match fcGet c "min" with
  | some mv =>
    match pyLt? v mv.toValue with
    | some true => false
    | some false => rangeMaxNum c v
    | none => false
  | none => rangeMaxNum c v

/-- The `to` half of the DATE range check of `matches`:
`if date_to and date_value > date_to: return False` (truthiness test on the
bound, `TypeError` caught to `False`). -/
def rangeToDate (c : FilterConfig) (v : Value) : Bool :=
  match fcGet c "to" with
  | some tv =>
    if tv.truthy then
      match pyLt? tv.toValue v with
      | some true => false
      | some false => true
      | none => false
    else true
  | none => true

/-- The DATE range check of `matches` (lines 203–209). -/
def rangeOkDate (c : FilterConfig) (v : Value) : Bool :=
  match fcGet c "from" with
  | some fv =>
    if fv.truthy then
      match pyLt? v fv.toValue with
      | some true => false
      | some false => rangeToDate c v
      | none => false
    else rangeToDate c v
  | none => rangeToDate c v

/-- `SamplingRule.matches(row)` (lines 165–213): the in-memory evaluation of
the rule's predicate against one row. -/
def SamplingRule.matches (rule : SamplingRule) (row : Row) : Bool :=
  let value := row.get rule.column
  if rule.column_type == ColumnType.TEXT then
    let ft := cfgTypeTag rule.filter_config
    if ft == .str "equals" then
      let values := cfgValues rule.filter_config
      values.isEmpty || values.contains (pyStr value)
    else if ft == .str "contains" then
      let pat := cfgPattern rule.filter_config
      pat.isEmpty || isInfixL (lowerChars pat.data) (lowerChars (pyStr value).data)
    else true
  else if rule.column_type == ColumnType.NUMBER then
    match value with
    | .null => false
    | .str s =>
      match pyFloat? s with
      | some q => rangeOkNum rule.filter_config (.num q)
      | none => false
    | v => rangeOkNum rule.filter_config v
  else if rule.column_type == ColumnType.DATE then
    match value with
    | .null => false
    | .str s =>
      match parseDateISO s with
      | some d => rangeOkDate rule.filter_config (.date d)
      | none => false
    | v => rangeOkDate rule.filter_config v
  else true

/-- The clause a NUMBER bound contributes (`if min_val is not None:
clauses.append(...)`): one comparison when the key is present. -/
def numBoundClause (o : Option ConfigVal) (s : String) : List String :=
  match o with
  | some _ => [s]
  | none => []

/-- The parameter a NUMBER bound contributes (`params.append(min_val)`). -/
def numBoundParam (o : Option ConfigVal) : List ConfigVal :=
  match o with
  | some v => [v]
  | none => []

/-- The clause a DATE bound contributes (`if date_from:` followed by
`strftime`): one comparison when the entry is a (necessarily truthy)
datetime. -/
def dateBoundClause (o : Option ConfigVal) (s : String) : List String :=
  match o with
  | some (.date _) => [s]
  | _ => []

/-- The parameter a DATE bound contributes: its `strftime('%Y-%m-%d')`
string. -/
def dateBoundParam (o : Option ConfigVal) : List ConfigVal :=
  match o with
  | some (.date d) => [ConfigVal.str (fmtISO d)]
  | _ => []

/-- `DimensionalFilter.to_sql_where()` (lines 49–100): the parameterized SQL
WHERE fragment and its ordered parameter list. In the DATE branch a truthy
non-datetime bound would raise `AttributeError` in `strftime`; that crash path
is not modelled (the tool only stores datetimes or nothing under
`'from'`/`'to'`). -/
def DimensionalFilter.to_sql_where (f : DimensionalFilter) : String × List ConfigVal :=
  if f.column.isEmpty || f.filter_config.isEmpty then ("", [])
  else if f.column_type == ColumnType.TEXT then
    let ft := cfgTypeTag f.filter_config
    if ft == .str "equals" then
      let values := cfgValues f.filter_config
      if !values.isEmpty then
        (f.column ++ " IN (" ++ String.intercalate "," (List.replicate values.length "?") ++ ")",
          values.map ConfigVal.str)
      else ("", [])
    else if ft == .str "contains" then
      let pat := cfgPattern f.filter_config
      if !pat.isEmpty then
        (f.column ++ " LIKE ?", [ConfigVal.str ("%" ++ pat ++ "%")])
      else ("", [])
    else ("", [])
  else if f.column_type == ColumnType.NUMBER then
    let clauses :=
      numBoundClause (fcGet f.filter_config "min") ("CAST(" ++ f.column ++ " AS REAL) >= ?") ++
      numBoundClause (fcGet f.filter_config "max") ("CAST(" ++ f.column ++ " AS REAL) <= ?")
    let params :=
      numBoundParam (fcGet f.filter_config "min") ++
      numBoundParam (fcGet f.filter_config "max")
    if !clauses.isEmpty then (String.intercalate " AND " clauses, params) else ("", [])
  else if f.column_type == ColumnType.DATE then
    let clauses :=
      dateBoundClause (fcGet f.filter_config "from") (f.column ++ " >= ?") ++
      dateBoundClause (fcGet f.filter_config "to") (f.column ++ " <= ?")
    let params :=
      dateBoundParam (fcGet f.filter_config "from") ++
      dateBoundParam (fcGet f.filter_config "to")
    if !clauses.isEmpty then (String.intercalate " AND " clauses, params) else ("", [])
  else ("", [])

/-! ## SQLite semantics of the generated fragments -/

/-- SQLite `LIKE`: `%` matches any sequence, `_` any single character, other
characters match ASCII-case-insensitively. -/
def sqlLike (p s : List Char) : Bool :=
  match p, s with
  | [], [] => true
  | [], _ :: _ => false
  | a :: ps, [] => if a = '%' then sqlLike ps [] else false
  | a :: ps, c :: ss =>
    if a = '%' then sqlLike ps (c :: ss) || sqlLike (a :: ps) ss
    else if a = '_' then sqlLike ps ss
    else a.toLower == c.toLower && sqlLike ps ss
termination_by (p.length, s.length)

/-- The operand of `LIKE` as SQLite text: `NULL` stays `NULL` (the whole
predicate is then UNKNOWN), non-text storage classes are rendered as text
(renderings simplified; the theorems only apply this to strings). -/
def sqlText : Value → Option (List Char)
  | .null => none
  | .str s => some s.data
  | .num q => some (toString q).data
  | .date d => some (fmtISOChars d)

/-- `CAST(v AS REAL)` in SQLite: `NULL` stays `NULL`; text converts via
`sqlite3AtoF` (numeric prefix, else `0.0`); numerics are themselves. A
`datetime` never occurs as a stored row value; it is rendered as ISO text
first. -/
def sqlCastReal : Value → Option Rat
  | .null => none
  | .str s => some (sqliteAtof s.data)
  | .num q => some q
  | .date d => some (sqliteAtof (fmtISOChars d))

/-- `r >= ?` with a bound parameter, `r` a real: SQLite orders every numeric
below every text value, so a real is `>=` only a numeric parameter that is
`≤ r`. (A bound `datetime`/list parameter is adapted to text / rejected by
`sqlite3`; both are unreachable in well-formed configurations.) -/
def sqlGeParam (r : Rat) (p : ConfigVal) : Bool :=
  match p with
  | .num m => decide (m ≤ r)
  | _ => false

/-- `r <= ?`, `r` a real: a real is below every text parameter. -/
def sqlLeParam (r : Rat) (p : ConfigVal) : Bool :=
  match p with
  | .num m => decide (r ≤ m)
  | _ => true

/-- `v >= ?` with a text parameter (the DATE fragments): `NULL` is UNKNOWN
(excluded), text compares under BINARY collation, a numeric sorts below all
text. -/
def sqlGeText (v : Value) (pat : List Char) : Bool :=
  match v with
  | .null => false
  | .str s => bytesLe pat s.data
  | .num _ => false
  | .date d => bytesLe pat (fmtISOChars d)

/-- `v <= ?` with a text parameter. -/
def sqlLeText (v : Value) (pat : List Char) : Bool :=
  match v with
  | .null => false
  | .str s => bytesLe s.data pat
  | .num _ => true
  | .date d => bytesLe (fmtISOChars d) pat

/-- `v IN (?, …, ?)` with the text parameters of a TEXT-equals fragment:
`NULL IN (...)` is UNKNOWN (excluded); a text value is in the list iff it
equals one of the parameter strings exactly; a numeric value never equals a
text parameter. -/
def sqlInList (v : Value) (params : List String) : Bool :=
  match v with
  | .null => false
  | .str s => params.contains s
  | .num _ => false
  | .date d => params.contains (fmtISO d)

/-- Evaluation, against one row, of the WHERE fragment `to_sql_where`
produces, under SQLite semantics (an empty fragment keeps every row; an
UNKNOWN predicate result excludes the row exactly like FALSE). The generated
fragment shapes are fixed, so the evaluator follows the same case split that
produces them. -/
def sqlEvalFilter (f : DimensionalFilter) (row : Row) : Bool :=
  let v := row.get f.column
  if f.column.isEmpty || f.filter_config.isEmpty then true
  else if f.column_type == ColumnType.TEXT then
    let ft := cfgTypeTag f.filter_config
    if ft == .str "equals" then
      let values := cfgValues f.filter_config
      if !values.isEmpty then sqlInList v values else true
    else if ft == .str "contains" then
      let pat := cfgPattern f.filter_config
      if !pat.isEmpty then
        match sqlText v with
        | some s => sqlLike ('%' :: (pat.data ++ ['%'])) s
        | none => false
      else true
    else true
  else if f.column_type == ColumnType.NUMBER then
    let minv := fcGet f.filter_config "min"
    let maxv := fcGet f.filter_config "max"
    match minv, maxv with
    | none, none => true
    | _, _ =>
      match sqlCastReal v with
      | none => false
      | some r =>
        (match minv with
         | some p => sqlGeParam r p
         | none => true) &&
        (match maxv with
         | some p => sqlLeParam r p
         | none => true)
  else if f.column_type == ColumnType.DATE then
    let fromv := fcGet f.filter_config "from"
    let tov := fcGet f.filter_config "to"
    (match fromv with
     | some (.date d) => sqlGeText v (fmtISOChars d)
     | _ => true) &&
    (match tov with
     | some (.date d) => sqlLeText v (fmtISOChars d)
     | _ => true)
  else true

/-! ## Column type detection (`DataHandler.detect_column_type`) -/

/-- A value parses as a date under some format of the nine-format list (the
inner loop tries the formats in order and `break`s on the first success; for
counting, only the existence of a success matters). -/
def parsesAsDate (s : String) : Bool :=
  dateFormats.any (fun fmt => (parseYMD fmt s.data).isSome)

/-- The index of the last occurrence of a character (`str.rindex`); only
meaningful when the character occurs. -/
def rindexAux : List Char → Char → Option Nat
  | [], _ => none
  | x :: xs, c =>
    match rindexAux xs c with
    | some i => some (i + 1)
    | none => if x == c then some 0 else none

/-- `str.rindex(c)` (defaulting to 0 when absent; the code only calls it on
strings that contain the character). -/
def rindexOf (cs : List Char) (c : Char) : Nat := (rindexAux cs c).getD 0

/-- Lines 357–369 of `detect_column_type`: decimal-separator normalization.
If both `.` and `,` occur, the later one is the decimal separator and the
earlier one is stripped as a thousands separator; a lone `,` becomes the
decimal point. -/
def normalizeChars (cs : List Char) : List Char :=
  if cs.contains '.' && cs.contains ',' then
    if rindexOf cs ',' > rindexOf cs '.' then
      (cs.filter (fun c => c != '.')).map (fun c => if c == ',' then '.' else c)
    else
      cs.filter (fun c => c != ',')
  else if cs.contains ',' then cs.map (fun c => if c == ',' then '.' else c)
  else cs

/-- The separator normalization on strings. -/
def normalize_numeric (s : String) : String := ⟨normalizeChars s.data⟩

/-- `float(val_str.replace(' ', ''))` succeeds after normalization. -/
def parsesAsNumber (s : String) : Bool :=
  (pyFloat? ⟨(normalizeChars s.data).filter (fun c => c != ' ')⟩).isSome

/-- `DataHandler.detect_column_type` (lines 326–379). The thresholds
`count > len(values[:20]) * 0.5` are exact in floating point for sample sizes
up to 20 and are rendered as `2 * count > len`. Blank values are skipped by
the counters but still occupy sample slots (the sole caller pre-filters
blanks away). -/
def detect_column_type (values : List String) : String :=
  if values.isEmpty then ColumnType.UNKNOWN
  else
    let sample := values.take 20
    let dateCount := (sample.filter (fun v => !v.isEmpty)).countP parsesAsDate
    if 2 * dateCount > sample.length then ColumnType.DATE
    else
      let numberCount := (sample.filter (fun v => !v.isEmpty)).countP parsesAsNumber
      if 2 * numberCount > sample.length then ColumnType.NUMBER
      else ColumnType.TEXT

/-! ## The stratified sampling engine -/

/-- One iteration of the per-rule loop of `generate_stratified_sample`
(lines 528–548): the records matching the rule among those not yet claimed,
the draw, the per-rule report string, and the updated claimed-index set.
`pick` abstracts `random.sample(population, k)`; the engine theorems assume
only what `random.sample` guarantees (its results are elements of the
population, and exactly `k` of them). -/
def sampleRuleStep (pick : List (Nat × Row) → Nat → List (Nat × Row))
    (filteredData : List Row) (sampledIndices : List Nat) (rule : SamplingRule) :
    List (Nat × String × Row) × String × List Nat :=
  let matching := filteredData.enum.filter
    (fun p => !sampledIndices.contains p.1 && rule.matches p.2)
  let sampleSize := min rule.sample_count matching.length
  if 0 < sampleSize then
    let drawn := pick matching sampleSize
    (drawn.map (fun p => (p.1, rule.name, p.2)),
      rule.name ++ ": " ++ toString sampleSize ++ " samples",
      sampledIndices ++ drawn.map Prod.fst)
  else
    ([], rule.name ++ ": 0 samples (no matches)", sampledIndices)

/-- The rule loop, threading the claimed-index set through the rules in
declared order. -/
def runRules (pick : List (Nat × Row) → Nat → List (Nat × Row))
    (filteredData : List Row) :
    List SamplingRule → List Nat → List (Nat × String × Row) × List String
  | [], _ => ([], [])
  | rule :: rest, sampled =>
    let step := sampleRuleStep pick filteredData sampled rule
    let restOut := runRules pick filteredData rest step.2.2
    (step.1 ++ restOut.1, step.2.1 :: restOut.2)

/-- `DataHandler.generate_stratified_sample` (lines 514–550): results (each
drawn row with its index in `filtered_data` and the claiming rule's name) and
the per-rule report strings, starting from an empty claimed set. -/
def generate_stratified_sample (pick : List (Nat × Row) → Nat → List (Nat × Row))
    (filteredData : List Row) (rules : List SamplingRule) :
    List (Nat × String × Row) × List String :=
  runRules pick filteredData rules []

/-- `self.results` as the code stores it: each drawn row copied and tagged
under `'_rule_name'` with the claiming rule's name. -/
def taggedResults (res : List (Nat × String × Row)) : List Row :=
  res.map (fun p => Row.set p.2.2 "_rule_name" (.str p.2.1))

/-! ## Configuration persistence -/

/-- The configuration-relevant state of a `DataHandler`. -/
structure DataHandler where
  column_types : List (String × String)
  global_filters : List DimensionalFilter
  sampling_rules : List SamplingRule
deriving DecidableEq, Repr

/-- `column in self.column_types` (dict key membership). -/
def keyMem (k : String) (m : List (String × String)) : Bool :=
  m.any (fun p => p.1 == k)

/-- The date-to-string conversion `save_configuration` applies to a
DATE-typed object's `filter_config` (lines 570–574 and 581–585): truthy
`'from'`/`'to'` entries are replaced by their `strftime('%Y-%m-%d')` strings.
Datetimes are always truthy; a truthy non-datetime would raise
`AttributeError` in `strftime` (a crash path not modelled), and falsy entries
are left alone. -/
def convertKeyDate (k : String) (c : FilterConfig) : FilterConfig :=
  match fcGet c k with
  | some (.date d) => fcSet c k (.str (fmtISO d))
  | _ => c

def convertConfigDates (c : FilterConfig) : FilterConfig :=
  convertKeyDate "to" (convertKeyDate "from" c)

/-- The on-disk configuration record (`config_data`). `to_dict`/`from_dict`
translate losslessly between objects and their dict records, and
`json.dump`/`json.load` round-trip JSON-representable records exactly, so the
record reuses the object shapes and serialization is the identity on them. -/
structure ConfigFile where
  column_types : List (String × String)
  global_filters : List DimensionalFilter
  sampling_rules : List SamplingRule
deriving DecidableEq, Repr

/-- `DataHandler.save_configuration` (lines 556–596): the written record and
the post-call in-memory state. The in-memory state changes too, because
`to_dict` returns the live `filter_config` dict itself: the date-to-string
conversion meant for serialization mutates the live DATE filters/rules. -/
def save_configuration (h : DataHandler) : ConfigFile × DataHandler :=
  let gf := h.global_filters.map (fun f =>
    if f.column_type == ColumnType.DATE then
      { f with filter_config := convertConfigDates f.filter_config }
    else f)
  let sr := h.sampling_rules.map (fun r =>
    if r.column_type == ColumnType.DATE then
      { r with filter_config := convertConfigDates r.filter_config }
    else r)
  (⟨h.column_types, gf, sr⟩, ⟨h.column_types, gf, sr⟩)

/-- The string-to-date conversion of `load_configuration` (lines 611–617 and
627–633): truthy `'from'`/`'to'` entries (strings in a JSON record) are
parsed with `strptime('%Y-%m-%d')`. An unparsable non-empty string raises
(re-raised by the method), a path not modelled — the round-trip theorem's
strings parse. -/
def parseKeyDate (k : String) (c : FilterConfig) : FilterConfig :=
  match fcGet c k with
  | some (.str s) =>
    match parseDateISO s with
    | some d => fcSet c k (.date d)
    | none => c
  | _ => c

def parseConfigDates (c : FilterConfig) : FilterConfig :=
  parseKeyDate "to" (parseKeyDate "from" c)

/-- `DataHandler.load_configuration` (lines 598–641): rebuild the filter and
rule lists from the record, silently dropping entries whose column is absent
from `column_types`, and converting DATE bound strings back to datetimes. -/
def load_configuration (h : DataHandler) (file : ConfigFile) : DataHandler :=
  let gf := file.global_filters.filterMap (fun fd =>
    if keyMem fd.column h.column_types then
      some (if fd.column_type == ColumnType.DATE then
              { fd with filter_config := parseConfigDates fd.filter_config }
            else fd)
    else none)
  let sr := file.sampling_rules.filterMap (fun rd =>
    if keyMem rd.column h.column_types then
      some (if rd.column_type == ColumnType.DATE then
              { rd with filter_config := parseConfigDates rd.filter_config }
            else rd)
    else none)
  ⟨h.column_types, gf, sr⟩

/-! ## Well-formedness predicates used by the theorems -/

/-- A concrete selection function satisfying the `random.sample` contract
(elements of the population, exactly `k` of them when `k` fits), used by the
engine witnesses: take the first `k` matching records. -/
def takePick (l : List (Nat × Row)) (k : Nat) : List (Nat × Row) := l.take k

/-- A date whose `strftime('%Y-%m-%d')` output is the canonical zero-padded
form (`%Y` pads only down to 1000 on Linux). -/
def goodDateB (d : Date) : Bool := Date.ValidB d && decide (1000 ≤ d.year)

/-- What `save_configuration` can handle under a DATE config's
`'from'`/`'to'` key without crashing or losing information: a representable
date (truthy, converted) or any falsy value (skipped). -/
def wfDateEntry : ConfigVal → Bool
  | .date d => goodDateB d
  | v => !v.truthy

/-- A configuration dict `save_configuration` serializes faithfully: under a
DATE column type, `'from'`/`'to'` entries hold representable dates or falsy
values; everything else must be JSON-representable (no datetime). -/
def wfCfgSaveB (t : String) (c : FilterConfig) : Bool :=
  c.all (fun p =>
    if t == ColumnType.DATE && (p.1 == "from" || p.1 == "to") then wfDateEntry p.2
    else
      match p.2 with
      | .date _ => false
      | _ => true)

/-- The shape of a filter configuration as far as the generated SQL text is
concerned: emptiness, the TEXT mode tag, the number of `equals` values,
emptiness of the `contains` pattern, presence of numeric bounds, and presence
of datetime bounds. -/
structure SqlShape where
  cfgEmpty : Bool
  typeTag : ConfigVal
  nValues : Nat
  patternEmpty : Bool
  hasMin : Bool
  hasMax : Bool
  hasFromDate : Bool
  hasToDate : Bool
deriving DecidableEq, Repr

/-- The entry is a datetime (the only case in which the DATE branch of
`to_sql_where` emits a clause). -/
def isSomeDateOpt : Option ConfigVal → Bool
  | some (.date _) => true
  | _ => false

/-- Extract the SQL-text-relevant shape of a filter's configuration. -/
def shapeOf (f : DimensionalFilter) : SqlShape :=
  ⟨f.filter_config.isEmpty, cfgTypeTag f.filter_config,
   (cfgValues f.filter_config).length, (cfgPattern f.filter_config).isEmpty,
   (fcGet f.filter_config "min").isSome, (fcGet f.filter_config "max").isSome,
   isSomeDateOpt (fcGet f.filter_config "from"),
   isSomeDateOpt (fcGet f.filter_config "to")⟩

/-- A `LIKE` pattern with no wildcard characters (`%`, `_`): on such patterns
`LIKE '%p%'` means exactly "contains `p`". -/
def noWild (p : List Char) : Bool := p.all (fun c => c != '%' && c != '_')

/-- The bound is absent or a number (a well-typed NUMBER config). -/
def isOptNum : Option ConfigVal → Bool
  | none => true
  | some (.num _) => true
  | _ => false

/-- The bound is absent or a representable datetime (a well-typed DATE
config). -/
def isOptValidDate : Option ConfigVal → Bool
  | none => true
  | some (.date d) => Date.ValidB d
  | _ => false

/-- A filter configuration that is well-typed for its column type, as the UI
and `load_configuration` produce them, and on which the two evaluation modes
can agree: a wildcard-free ASCII pattern for TEXT (Python's `str.lower()`
lowercases all of Unicode while SQLite's `LIKE` folds ASCII only, so
non-ASCII patterns genuinely diverge — see the C3 counterexample), numeric
bounds for NUMBER, datetime bounds for DATE. -/
def wfSqlCfg (t : String) (c : FilterConfig) : Bool :=
  if t == ColumnType.TEXT then
    noWild (cfgPattern c).data && asciiOnly (cfgPattern c).data
  else if t == ColumnType.NUMBER then
    isOptNum (fcGet c "min") && isOptNum (fcGet c "max")
  else if t == ColumnType.DATE then
    isOptValidDate (fcGet c "from") && isOptValidDate (fcGet c "to")
  else true

/-- A row value that is well-typed for the filtered column's type: an ASCII
string for TEXT (on non-ASCII text Python's Unicode `str.lower()` and
SQLite's ASCII-only `LIKE` folding genuinely diverge); a number, or a string
read identically by Python's `float` and SQLite's text-to-real conversion,
for NUMBER; a canonical zero-padded `YYYY-MM-DD` string for DATE. On null,
ill-typed and non-ASCII TEXT values the two evaluation modes genuinely
diverge (see the C3 counterexample). -/
def wfSqlValue (t : String) (v : Value) : Bool :=
  if t == ColumnType.TEXT then
    match v with
    | .str s => asciiOnly s.data
    | _ => false
  else if t == ColumnType.NUMBER then
    match v with
    | .num _ => true
    | .str s =>
      match pyFloat? s with
      | some q => sqliteAtof s.data == q
      | none => false
    | _ => false
  else if t == ColumnType.DATE then
    match v with
    | .str s =>
      match parseDateISO s with
      | some d => fmtISO d == s
      | none => false
    | _ => false
  else true

/-- A concrete `DataHandler` with a DATE filter and a TEXT rule, used by the
persistence witness. -/
def handlerC9 : DataHandler :=
  ⟨[("d", ColumnType.DATE), ("t", ColumnType.TEXT)],
   [⟨"d", ColumnType.DATE,
     [("from", ConfigVal.date ⟨2020, 1, 1⟩), ("to", ConfigVal.date ⟨2021, 12, 31⟩)]⟩],
   [⟨"r1", "t", ColumnType.TEXT,
     [("type", ConfigVal.str "equals"), ("values", ConfigVal.strList ["a", "b"])], 3⟩]⟩

/-! ## Basic dictionary lemmas -/

theorem fcGet_fcSet_same (c : FilterConfig) (k : String) (v : ConfigVal) :
    fcGet (fcSet c k v) k = some v := by
  induction c with
  | nil => simp [fcGet, fcSet]
  | cons p rest ih =>
    obtain ⟨a, b⟩ := p
    by_cases h : a = k
    · simp [fcGet, fcSet, beq_iff_eq.mpr h]
    · simp [fcGet, fcSet, beq_eq_false_iff_ne.mpr h, ih]

theorem fcGet_fcSet_other (c : FilterConfig) (k k2 : String) (v : ConfigVal)
    (h : k2 ≠ k) : fcGet (fcSet c k v) k2 = fcGet c k2 := by
  have hkk : (k == k2) = false := beq_eq_false_iff_ne.mpr (Ne.symm h)
  induction c with
  | nil => simp [fcGet, fcSet, hkk]
  | cons p rest ih =>
    obtain ⟨a, b⟩ := p
    by_cases ha : a = k
    · have hak2 : (a == k2) = false := by
        rw [ha]
        exact hkk
      simp [fcGet, fcSet, beq_iff_eq.mpr ha, hkk, hak2]
    · by_cases ha2 : a = k2
      · simp [fcGet, fcSet, beq_eq_false_iff_ne.mpr ha, beq_iff_eq.mpr ha2]
      · simp [fcGet, fcSet, beq_eq_false_iff_ne.mpr ha,
          beq_eq_false_iff_ne.mpr ha2, ih]

theorem fcSet_fcSet_same (c : FilterConfig) (k : String) (v w : ConfigVal) :
    fcSet (fcSet c k v) k w = fcSet c k w := by
  induction c with
  | nil => simp [fcSet]
  | cons p rest ih =>
    obtain ⟨a, b⟩ := p
    by_cases h : a = k
    · simp [fcSet, beq_iff_eq.mpr h]
    · simp [fcSet, beq_eq_false_iff_ne.mpr h, ih]

theorem fcSet_comm_of_mem (c : FilterConfig) (k k2 : String) (v w : ConfigVal)
    (h : k ≠ k2) (hk : (fcGet c k).isSome = true) :
    fcSet (fcSet c k v) k2 w = fcSet (fcSet c k2 w) k v := by
  induction c with
  | nil => simp [fcGet] at hk
  | cons p rest ih =>
    obtain ⟨a, b⟩ := p
    by_cases ha : a = k
    · simp [fcSet, beq_iff_eq.mpr ha, beq_eq_false_iff_ne.mpr h, beq_iff_eq.mpr (rfl : k = k),
        beq_eq_false_iff_ne.mpr (ha ▸ h : a ≠ k2)]
    · by_cases ha2 : a = k2
      · simp [fcSet, beq_eq_false_iff_ne.mpr ha, beq_iff_eq.mpr ha2,
          beq_eq_false_iff_ne.mpr (Ne.symm h), beq_iff_eq.mpr (rfl : k2 = k2)]
      · have hk2 : (fcGet rest k).isSome = true := by
          simpa [fcGet, beq_eq_false_iff_ne.mpr ha] using hk
        simp [fcSet, beq_eq_false_iff_ne.mpr ha, beq_eq_false_iff_ne.mpr ha2, ih hk2]

theorem fcSet_eq_self (c : FilterConfig) (k : String) (v : ConfigVal)
    (h : fcGet c k = some v) : fcSet c k v = c := by
  induction c with
  | nil => simp [fcGet] at h
  | cons p rest ih =>
    obtain ⟨a, b⟩ := p
    by_cases ha : a = k
    · simp only [fcGet, beq_iff_eq.mpr ha, if_true, Option.some.injEq] at h
      simp [fcSet, beq_iff_eq.mpr ha, ha, h]
    · simp only [fcGet, beq_eq_false_iff_ne.mpr ha, Bool.false_eq_true, if_false] at h
      simp [fcSet, beq_eq_false_iff_ne.mpr ha, ih h]

theorem mem_of_fcGet (c : FilterConfig) (k : String) (v : ConfigVal)
    (h : fcGet c k = some v) : (k, v) ∈ c := by
  induction c with
  | nil => simp [fcGet] at h
  | cons p rest ih =>
    obtain ⟨a, b⟩ := p
    by_cases ha : a = k
    · simp only [fcGet, beq_iff_eq.mpr ha, if_true, Option.some.injEq] at h
      simp [ha, h]
    · simp only [fcGet, beq_eq_false_iff_ne.mpr ha, Bool.false_eq_true, if_false] at h
      exact List.mem_cons_of_mem _ (ih h)

/-! ## C10: `save_configuration` mutates the live configuration -/

/-- C10: refuted — `save_configuration` is claimed to leave the in-memory
`global_filters`/`sampling_rules` unchanged, but `to_dict` returns the live
`filter_config` dict, so the date-to-string conversion intended for the JSON
file rewrites the live DATE filter's `'from'`/`'to'` entries to strings: after
saving, a DATE filter whose `'from'` was `datetime(2020, 1, 1)` holds the
string `'2020-01-01'` instead. -/
theorem C10_save_mutates_live_config :
    (save_configuration
        ⟨[("d", ColumnType.DATE)],
         [⟨"d", ColumnType.DATE, [("from", ConfigVal.date ⟨2020, 1, 1⟩)]⟩],
         []⟩).2.global_filters =
      [⟨"d", ColumnType.DATE, [("from", ConfigVal.str "2020-01-01")]⟩] ∧
    (save_configuration
        ⟨[("d", ColumnType.DATE)],
         [⟨"d", ColumnType.DATE, [("from", ConfigVal.date ⟨2020, 1, 1⟩)]⟩],
         []⟩).2.global_filters ≠
      [⟨"d", ColumnType.DATE, [("from", ConfigVal.date ⟨2020, 1, 1⟩)]⟩] := by
  constructor
  · rfl
  · decide

/-! ## C4: TEXT `equals` with an empty value set -/

/-- C4: counterexample — the claim says a present TEXT `equals` config with an
empty value set matches nothing, but `matches` evaluates
`not values or str(value) in values`, and `not []` is `True`: the rule matches
every row. -/
theorem C4_counterexample :
    SamplingRule.matches
        ⟨"r", "c", ColumnType.TEXT,
         [("type", ConfigVal.str "equals"), ("values", ConfigVal.strList [])], 5⟩
        [("c", Value.str "v")] = true ∧
    ([("type", ConfigVal.str "equals"), ("values", ConfigVal.strList [])] :
        FilterConfig) ≠ [] := by
  constructor
  · rfl
  · decide

/-- C4 (amended): a TEXT `equals` filter whose value set is empty matches
every row — the empty selection behaves exactly like an absent config (and
`to_sql_where` likewise emits no clause for it), not as a contradiction. -/
theorem C4_empty_values_matches_all (rule : SamplingRule) (row : Row)
    (ht : rule.column_type = ColumnType.TEXT)
    (he : cfgTypeTag rule.filter_config = ConfigVal.str "equals")
    (hv : cfgValues rule.filter_config = []) :
    rule.matches row = true := by
  unfold SamplingRule.matches
  rw [ht]
  simp [he, hv]

/-- Witness for C4's amended theorem at a concrete rule and row. -/
theorem C4_witness :
    SamplingRule.matches
        ⟨"r", "c", ColumnType.TEXT,
         [("type", ConfigVal.str "equals"), ("values", ConfigVal.strList [])], 5⟩
        [("c", Value.null)] = true :=
  C4_empty_values_matches_all _ _ rfl rfl rfl

/-! ## C5: an empty `filter_config` -/

/-- C5: counterexample — the claim says an empty config matches every row for
all three column types, but the NUMBER branch of `matches` returns `False`
for a null value before ever looking at the (empty) config. -/
theorem C5_counterexample :
    SamplingRule.matches ⟨"r", "c", ColumnType.NUMBER, [], 5⟩
      [("c", Value.null)] = false := by
  rfl

/-- C5 (amended): a filter with an empty `filter_config` matches every row
when the column type is TEXT (or unrecognized); for NUMBER and DATE it
matches exactly the rows whose value in the column is non-null and — when the
value is a string — parses as a float resp. as a `%Y-%m-%d` date. -/
theorem C5_empty_config_matches (rule : SamplingRule) (row : Row)
    (h : rule.filter_config = []) :
    rule.matches row =
      (if rule.column_type == ColumnType.NUMBER then
        (match row.get rule.column with
         | Value.null => false
         | Value.str s => (pyFloat? s).isSome
         | _ => true)
       else if rule.column_type == ColumnType.DATE then
        (match row.get rule.column with
         | Value.null => false
         | Value.str s => (parseDateISO s).isSome
         | _ => true)
       else true) := by
  by_cases hT : rule.column_type = ColumnType.TEXT
  · simp [SamplingRule.matches, hT, h, cfgTypeTag, cfgValues, fcGet,
      ColumnType.TEXT, ColumnType.NUMBER, ColumnType.DATE]
  · by_cases hN : rule.column_type = ColumnType.NUMBER
    · rw [SamplingRule.matches, hN]
      simp only [ColumnType.NUMBER, ColumnType.TEXT, ColumnType.DATE]
      norm_num
      cases hv : Row.get row rule.column with
      | null => rfl
      | str s =>
        cases hpf : pyFloat? s <;> simp [rangeOkNum, rangeMaxNum, h, fcGet, hpf]
      | num q => simp [rangeOkNum, rangeMaxNum, h, fcGet]
      | date d => simp [rangeOkNum, rangeMaxNum, h, fcGet]
    · by_cases hD : rule.column_type = ColumnType.DATE
      · rw [SamplingRule.matches, hD]
        simp only [ColumnType.NUMBER, ColumnType.TEXT, ColumnType.DATE]
        norm_num
        cases hv : Row.get row rule.column with
        | null => rfl
        | str s =>
          cases hpd : parseDateISO s <;>
            simp [rangeOkDate, rangeToDate, h, fcGet, hpd]
        | num q => simp [rangeOkDate, rangeToDate, h, fcGet]
        | date d => simp [rangeOkDate, rangeToDate, h, fcGet]
      · simp [SamplingRule.matches, beq_eq_false_iff_ne.mpr hT,
          beq_eq_false_iff_ne.mpr hN, beq_eq_false_iff_ne.mpr hD]

/-- Witness for C5's amended theorem at a concrete rule and row. -/
theorem C5_witness :
    SamplingRule.matches ⟨"w", "c", ColumnType.TEXT, [], 1⟩
      [("c", Value.null)] = true :=
  (C5_empty_config_matches _ _ rfl).trans (by decide)

/-! ## C1/C2: the sampling engine -/

theorem sampleRuleStep_mem (pick : List (Nat × Row) → Nat → List (Nat × Row))
    (hmem : ∀ l k, ∀ x ∈ pick l k, x ∈ l)
    (data : List Row) (sampled : List Nat) (rule : SamplingRule)
    (e : Nat × String × Row)
    (he : e ∈ (sampleRuleStep pick data sampled rule).1) :
    e.2.1 = rule.name ∧ e.1 ∉ sampled ∧
      e.1 ∈ (sampleRuleStep pick data sampled rule).2.2 := by
  simp only [sampleRuleStep] at he ⊢
  by_cases hpos : 0 < min rule.sample_count
      ((data.enum.filter (fun p => !sampled.contains p.1 && rule.matches p.2)).length)
  · rw [if_pos hpos] at he ⊢
    replace he : e ∈ List.map (fun p => (p.1, rule.name, p.2))
        (pick (data.enum.filter (fun p => !sampled.contains p.1 && rule.matches p.2))
          (min rule.sample_count
            ((data.enum.filter (fun p => !sampled.contains p.1 && rule.matches p.2)).length))) := he
    obtain ⟨p, hp, hfe⟩ := List.mem_map.mp he
    have hpm := hmem _ _ _ hp
    obtain ⟨-, hcond⟩ := List.mem_filter.mp hpm
    rw [Bool.and_eq_true] at hcond
    obtain ⟨h1, -⟩ := hcond
    have hns : p.1 ∉ sampled := by simpa using h1
    subst hfe
    exact ⟨rfl, hns, List.mem_append_right _ (List.mem_map_of_mem _ hp)⟩
  · rw [if_neg hpos] at he
    simp at he

theorem sampleRuleStep_sampled_mono
    (pick : List (Nat × Row) → Nat → List (Nat × Row))
    (data : List Row) (sampled : List Nat) (rule : SamplingRule) (i : Nat)
    (hi : i ∈ sampled) : i ∈ (sampleRuleStep pick data sampled rule).2.2 := by
  simp only [sampleRuleStep]
  by_cases hpos : 0 < min rule.sample_count
      ((data.enum.filter (fun p => !sampled.contains p.1 && rule.matches p.2)).length)
  · rw [if_pos hpos]
    exact List.mem_append_left _ hi
  · rw [if_neg hpos]
    exact hi

theorem runRules_result_not_sampled
    (pick : List (Nat × Row) → Nat → List (Nat × Row))
    (hmem : ∀ l k, ∀ x ∈ pick l k, x ∈ l)
    (data : List Row) :
    ∀ (rules : List SamplingRule) (sampled : List Nat) (e : Nat × String × Row),
      e ∈ (runRules pick data rules sampled).1 → e.1 ∉ sampled := by
  intro rules
  induction rules with
  | nil =>
    intro sampled e he
    simp [runRules] at he
  | cons rule rest ih =>
    intro sampled e he
    simp only [runRules, List.mem_append] at he
    rcases he with he | he
    · exact (sampleRuleStep_mem pick hmem data sampled rule e he).2.1
    · intro hin
      exact ih _ e he (sampleRuleStep_sampled_mono pick data sampled rule e.1 hin)

/-- C1: results of `generate_stratified_sample` are exclusive — for any
selection behaviour of `random.sample` (abstracted as `pick`, assumed only to
return elements of its population), any rule list and any filtered dataset,
if a row index appears in the results under two rule names, the names are
equal: each drawn row is claimed by exactly one rule, because every drawn
index enters `sampled_indices` and later rules only see records whose index
is not yet claimed. -/
theorem C1_sampling_exclusivity
    (pick : List (Nat × Row) → Nat → List (Nat × Row))
    (hmem : ∀ l k, ∀ x ∈ pick l k, x ∈ l)
    (data : List Row) (rules : List SamplingRule)
    (i : Nat) (n₁ n₂ : String) (r₁ r₂ : Row)
    (h₁ : (i, n₁, r₁) ∈ (generate_stratified_sample pick data rules).1)
    (h₂ : (i, n₂, r₂) ∈ (generate_stratified_sample pick data rules).1) :
    n₁ = n₂ := by
  unfold generate_stratified_sample at h₁ h₂
  revert h₁ h₂
  generalize ([] : List Nat) = sampled
  induction rules generalizing sampled with
  | nil =>
    intro h₁ h₂
    simp [runRules] at h₁
  | cons rule rest ih =>
    intro h₁ h₂
    simp only [runRules, List.mem_append] at h₁ h₂
    rcases h₁ with h₁ | h₁ <;> rcases h₂ with h₂ | h₂
    · have e₁ := (sampleRuleStep_mem pick hmem data sampled rule _ h₁).1
      have e₂ := (sampleRuleStep_mem pick hmem data sampled rule _ h₂).1
      exact e₁.trans e₂.symm
    · exfalso
      have hin := (sampleRuleStep_mem pick hmem data sampled rule _ h₁).2.2
      exact runRules_result_not_sampled pick hmem data rest _ _ h₂ hin
    · exfalso
      have hin := (sampleRuleStep_mem pick hmem data sampled rule _ h₂).2.2
      exact runRules_result_not_sampled pick hmem data rest _ _ h₁ hin
    · exact ih _ h₁ h₂

/-- Witness for C1 at a concrete selection function, rule list and dataset:
the single matching row is drawn under rule "A", and the theorem applies. -/
theorem C1_witness :
    (0, "A", [("c", Value.str "x")]) ∈
      (generate_stratified_sample takePick [[("c", Value.str "x")]]
        [⟨"A", "c", ColumnType.TEXT, [], 5⟩]).1 ∧
    ("A" : String) = "A" := by
  refine ⟨by decide, ?_⟩
  exact C1_sampling_exclusivity takePick
    (fun l k x hx => List.take_subset k l hx)
    [[("c", Value.str "x")]] [⟨"A", "c", ColumnType.TEXT, [], 5⟩]
    0 "A" "A" [("c", Value.str "x")] [("c", Value.str "x")]
    (by decide) (by decide)

/-- C2: per-rule draw size and report format — for every selection function
satisfying the `random.sample` length contract, every rule processed by the
engine draws exactly `min(rule.sample_count, |matching ∧ unclaimed|)` records
(over-requesting is not an error), reports `"<name>: <n> samples"` when
`n > 0` and `"<name>: 0 samples (no matches)"` otherwise, and the rule loop
threads each rule through this step in order. -/
theorem C2_sample_count_cap
    (pick : List (Nat × Row) → Nat → List (Nat × Row))
    (hlen : ∀ l k, k ≤ l.length → (pick l k).length = k)
    (data : List Row) (sampled : List Nat) (rule : SamplingRule)
    (rest : List SamplingRule) :
    (sampleRuleStep pick data sampled rule).1.length =
      min rule.sample_count
        ((data.enum.filter (fun p => !sampled.contains p.1 && rule.matches p.2)).length) ∧
    (sampleRuleStep pick data sampled rule).2.1 =
      (if 0 < min rule.sample_count
            ((data.enum.filter (fun p => !sampled.contains p.1 && rule.matches p.2)).length)
       then rule.name ++ ": " ++
         toString (min rule.sample_count
           ((data.enum.filter (fun p => !sampled.contains p.1 && rule.matches p.2)).length)) ++
         " samples"
       else rule.name ++ ": 0 samples (no matches)") ∧
    (runRules pick data (rule :: rest) sampled).2 =
      (sampleRuleStep pick data sampled rule).2.1 ::
        (runRules pick data rest (sampleRuleStep pick data sampled rule).2.2).2 := by
  refine ⟨?_, ?_, rfl⟩
  · simp only [sampleRuleStep]
    by_cases hpos : 0 < min rule.sample_count
        ((data.enum.filter (fun p => !sampled.contains p.1 && rule.matches p.2)).length)
    · rw [if_pos hpos]
      exact (List.length_map _ _).trans (hlen _ _ (Nat.min_le_right _ _))
    · rw [if_neg hpos]
      show 0 = _
      omega
  · simp only [sampleRuleStep]
    by_cases hpos : 0 < min rule.sample_count
        ((data.enum.filter (fun p => !sampled.contains p.1 && rule.matches p.2)).length)
    · rw [if_pos hpos, if_pos hpos]
    · rw [if_neg hpos, if_neg hpos]

/-- Witness for C2: a rule requesting 1000 samples over 7 matching rows draws
exactly 7 and reports "big: 7 samples". -/
theorem C2_witness :
    (sampleRuleStep takePick
        (List.replicate 7 [("c", Value.str "x")]) []
        ⟨"big", "c", ColumnType.TEXT, [], 1000⟩).1.length = 7 ∧
    (sampleRuleStep takePick
        (List.replicate 7 [("c", Value.str "x")]) []
        ⟨"big", "c", ColumnType.TEXT, [], 1000⟩).2.1 = "big: 7 samples" := by
  have h := C2_sample_count_cap takePick
    (fun l k hk => by
      simpa [takePick] using (List.length_take k l).trans (Nat.min_eq_left hk))
    (List.replicate 7 [("c", Value.str "x")]) []
    ⟨"big", "c", ColumnType.TEXT, [], 1000⟩ []
  exact ⟨h.1.trans (by decide), h.2.1.trans (by decide)⟩

/-! ## Digit-list and rindex lemmas -/

theorem digit_ne (l : List Char) (hl : allDigits l = true) (c : Char)
    (hc : isDigitChar c = false) : ∀ x ∈ l, (x == c) = false := by
  intro x hx
  have hd : isDigitChar x = true := by
    have := List.all_eq_true.mp hl x hx
    simpa using this
  refine beq_eq_false_iff_ne.mpr (fun he => ?_)
  rw [he, hc] at hd
  exact Bool.false_ne_true hd

theorem not_mem_of_digits (l : List Char) (hl : allDigits l = true) (c : Char)
    (hc : isDigitChar c = false) : c ∉ l := by
  intro hm
  have := digit_ne l hl c hc c hm
  simp at this

theorem filter_ne_of_digits (l : List Char) (hl : allDigits l = true) (c : Char)
    (hc : isDigitChar c = false) : l.filter (fun x => x != c) = l :=
  List.filter_eq_self.mpr (fun a ha => by
    have := digit_ne l hl c hc a ha
    simp [bne, this])

theorem map_id_of_mem (l : List Char) (f : Char → Char)
    (h : ∀ x ∈ l, f x = x) : l.map f = l := by
  induction l with
  | nil => rfl
  | cons x rest ih =>
    simp only [List.map_cons, h x (List.mem_cons_self x rest),
      ih (fun y hy => h y (List.mem_cons_of_mem _ hy))]

theorem rindexAux_cons_some (xs : List Char) (x c : Char) (i : Nat)
    (h : rindexAux xs c = some i) : rindexAux (x :: xs) c = some (i + 1) := by
  simp [rindexAux, h]

theorem rindexAux_append_some (xs ys : List Char) (c : Char) (i : Nat)
    (h : rindexAux ys c = some i) :
    rindexAux (xs ++ ys) c = some (xs.length + i) := by
  induction xs with
  | nil => simpa using h
  | cons x rest ih =>
    rw [List.cons_append, rindexAux_cons_some _ x c _ ih]
    simp only [List.length_cons, Option.some.injEq]
    omega

theorem rindexAux_append_none (xs ys : List Char) (c : Char)
    (h : rindexAux ys c = none) :
    rindexAux (xs ++ ys) c = rindexAux xs c := by
  induction xs with
  | nil => simpa using h
  | cons x rest ih =>
    simp only [List.cons_append, rindexAux, List.append_eq]
    rw [ih]

theorem rindexAux_of_digits (l : List Char) (hl : allDigits l = true) (c : Char)
    (hc : isDigitChar c = false) : rindexAux l c = none := by
  induction l with
  | nil => rfl
  | cons x rest ih =>
    have h1 := digit_ne _ hl c hc x (List.mem_cons_self x rest)
    have hrest : allDigits rest = true := by
      have := List.all_eq_true.mp hl
      exact List.all_eq_true.mpr (fun y hy => this y (List.mem_cons_of_mem _ hy))
    simp [rindexAux, ih hrest, h1]

/-! ## C7: decimal-separator normalization -/

theorem normalizeChars_dot_comma (a b c : List Char)
    (ha : allDigits a = true) (hb : allDigits b = true) (hc : allDigits c = true) :
    normalizeChars (a ++ '.' :: (b ++ ',' :: c)) = a ++ (b ++ '.' :: c) := by
  have hdotA := not_mem_of_digits a ha '.' (by decide)
  have hdotB := not_mem_of_digits b hb '.' (by decide)
  have hdotC := not_mem_of_digits c hc '.' (by decide)
  have hcomC := not_mem_of_digits c hc ',' (by decide)
  have hcond : ((a ++ '.' :: (b ++ ',' :: c)).contains '.' &&
      (a ++ '.' :: (b ++ ',' :: c)).contains ',') = true := by
    simp
  have hrComma : rindexAux (a ++ '.' :: (b ++ ',' :: c)) ',' =
      some (a.length + (b.length + 1)) := by
    have h0 : rindexAux (',' :: c) ',' = some 0 := by
      simp [rindexAux, rindexAux_of_digits c hc ',' (by decide)]
    have h1 := rindexAux_append_some b (',' :: c) ',' 0 h0
    have h2 := rindexAux_cons_some _ '.' ',' _ h1
    have h3 := rindexAux_append_some a ('.' :: (b ++ ',' :: c)) ',' _ h2
    simpa using h3
  have hrDot : rindexAux (a ++ '.' :: (b ++ ',' :: c)) '.' = some a.length := by
    have h0 : rindexAux (',' :: c) '.' = none := by
      simp [rindexAux, rindexAux_of_digits c hc '.' (by decide)]
    have h1 : rindexAux (b ++ ',' :: c) '.' = none := by
      rw [rindexAux_append_none b _ _ h0]
      exact rindexAux_of_digits b hb '.' (by decide)
    have h2 : rindexAux ('.' :: (b ++ ',' :: c)) '.' = some 0 := by
      simp [rindexAux, h1]
    have h3 := rindexAux_append_some a ('.' :: (b ++ ',' :: c)) '.' 0 h2
    simpa using h3
  have hgt : rindexOf (a ++ '.' :: (b ++ ',' :: c)) ',' >
      rindexOf (a ++ '.' :: (b ++ ',' :: c)) '.' := by
    unfold rindexOf
    rw [hrComma, hrDot]
    simp
  rw [normalizeChars, if_pos hcond, if_pos hgt]
  have e1 : (('.' : Char) != '.') = false := by decide
  have e2 : ((',' : Char) != '.') = true := by decide
  have e3 : (((',' : Char) == ',') = true) := by decide
  have hfilter : (a ++ '.' :: (b ++ ',' :: c)).filter (fun x => x != '.') =
      a ++ (b ++ ',' :: c) := by
    simp only [List.filter_append, List.filter_cons, e1, e2, if_true,
      Bool.false_eq_true, if_false,
      filter_ne_of_digits a ha '.' (by decide),
      filter_ne_of_digits b hb '.' (by decide),
      filter_ne_of_digits c hc '.' (by decide)]
  have hmapc : List.map (fun x => if (x == ',') = true then '.' else x) c = c :=
    map_id_of_mem c _ (fun x hx => if_neg (by
      simp [digit_ne c hc ',' (by decide) x hx]))
  rw [hfilter, List.map_append, List.map_append,
    map_id_of_mem a _ (fun x hx => if_neg (by
      simp [digit_ne a ha ',' (by decide) x hx])),
    map_id_of_mem b _ (fun x hx => if_neg (by
      simp [digit_ne b hb ',' (by decide) x hx])),
    List.map_cons, hmapc, if_pos e3]

theorem normalizeChars_comma_dot (a b c : List Char)
    (ha : allDigits a = true) (hb : allDigits b = true) (hc : allDigits c = true) :
    normalizeChars (a ++ ',' :: (b ++ '.' :: c)) = a ++ (b ++ '.' :: c) := by
  have hcond : ((a ++ ',' :: (b ++ '.' :: c)).contains '.' &&
      (a ++ ',' :: (b ++ '.' :: c)).contains ',') = true := by
    simp
  have hrDot : rindexAux (a ++ ',' :: (b ++ '.' :: c)) '.' =
      some (a.length + (b.length + 1)) := by
    have h0 : rindexAux ('.' :: c) '.' = some 0 := by
      simp [rindexAux, rindexAux_of_digits c hc '.' (by decide)]
    have h1 := rindexAux_append_some b ('.' :: c) '.' 0 h0
    have h2 := rindexAux_cons_some _ ',' '.' _ h1
    have h3 := rindexAux_append_some a (',' :: (b ++ '.' :: c)) '.' _ h2
    simpa using h3
  have hrComma : rindexAux (a ++ ',' :: (b ++ '.' :: c)) ',' = some a.length := by
    have h0 : rindexAux ('.' :: c) ',' = none := by
      simp [rindexAux, rindexAux_of_digits c hc ',' (by decide)]
    have h1 : rindexAux (b ++ '.' :: c) ',' = none := by
      rw [rindexAux_append_none b _ _ h0]
      exact rindexAux_of_digits b hb ',' (by decide)
    have h2 : rindexAux (',' :: (b ++ '.' :: c)) ',' = some 0 := by
      simp [rindexAux, h1]
    have h3 := rindexAux_append_some a (',' :: (b ++ '.' :: c)) ',' 0 h2
    simpa using h3
  have hngt : ¬ (rindexOf (a ++ ',' :: (b ++ '.' :: c)) ',' >
      rindexOf (a ++ ',' :: (b ++ '.' :: c)) '.') := by
    unfold rindexOf
    rw [hrComma, hrDot]
    simp
  rw [normalizeChars, if_pos hcond, if_neg hngt]
  have e1 : ((',' : Char) != ',') = false := by decide
  have e2 : (('.' : Char) != ',') = true := by decide
  simp only [List.filter_append, List.filter_cons, e1, e2, if_true,
    Bool.false_eq_true, if_false,
    filter_ne_of_digits a ha ',' (by decide),
    filter_ne_of_digits b hb ',' (by decide),
    filter_ne_of_digits c hc ',' (by decide)]

theorem normalizeChars_comma_only (a c : List Char)
    (ha : allDigits a = true) (hc : allDigits c = true) :
    normalizeChars (a ++ ',' :: c) = a ++ '.' :: c := by
  have hdot : '.' ∉ (a ++ ',' :: c) := by
    intro hm
    rcases List.mem_append.mp hm with h | h
    · exact not_mem_of_digits a ha '.' (by decide) h
    · rcases List.mem_cons.mp h with h | h
      · exact absurd h (by decide)
      · exact not_mem_of_digits c hc '.' (by decide) h
  have h1 : (a ++ ',' :: c).contains '.' = false :=
    Bool.eq_false_iff.mpr (fun hcontains => hdot (by simpa using hcontains))
  have hcond : ¬ (((a ++ ',' :: c).contains '.' &&
      (a ++ ',' :: c).contains ',') = true) := by
    intro hcontra
    rw [Bool.and_eq_true] at hcontra
    exact Bool.false_ne_true (h1 ▸ hcontra.1)
  have hcomma : ((a ++ ',' :: c).contains ',') = true := by simp
  have e3 : (((',' : Char) == ',') = true) := by decide
  have hmapc : List.map (fun x => if (x == ',') = true then '.' else x) c = c :=
    map_id_of_mem c _ (fun x hx => if_neg (by
      simp [digit_ne c hc ',' (by decide) x hx]))
  rw [normalizeChars, if_neg hcond, if_pos hcomma, List.map_append,
    map_id_of_mem a _ (fun x hx => if_neg (by
      simp [digit_ne a ha ',' (by decide) x hx])),
    List.map_cons, hmapc, if_pos e3]

/-- C7: the numeric-detection locale normalization. In a raw value containing
both `.` and `,`, the later separator becomes the decimal point and the other
is stripped (shown for values of the shape digits-`.`-digits-`,`-digits and
digits-`,`-digits-`.`-digits); a lone `,` becomes the decimal point; and
concretely both `"1.234,56"` and `"1,234.56"` normalize to `"1234.56"`, which
parses to the numeric value 1234.56. -/
theorem C7_separator_normalization (a b c : List Char)
    (ha : allDigits a = true) (hb : allDigits b = true) (hc : allDigits c = true) :
    normalizeChars (a ++ '.' :: (b ++ ',' :: c)) = a ++ (b ++ '.' :: c) ∧
    normalizeChars (a ++ ',' :: (b ++ '.' :: c)) = a ++ (b ++ '.' :: c) ∧
    normalizeChars (a ++ ',' :: c) = a ++ '.' :: c ∧
    normalize_numeric "1.234,56" = "1234.56" ∧
    normalize_numeric "1,234.56" = "1234.56" ∧
    pyFloat? "1234.56" = some ((123456 : Rat) / 100) :=
  ⟨normalizeChars_dot_comma a b c ha hb hc,
   normalizeChars_comma_dot a b c ha hb hc,
   normalizeChars_comma_only a c ha hc,
   by decide, by decide,
   by
    have h : pyFloat? "1234.56" = some (mkRat 123456 100) := by decide
    rw [h, Rat.mkRat_eq_divInt, Rat.divInt_eq_div]
    norm_num⟩

/-- Witness for C7 at the concrete digit groups of `"1.234,56"`. -/
theorem C7_witness :
    normalizeChars (['1'] ++ '.' :: (['2', '3', '4'] ++ ',' :: ['5', '6'])) =
      ['1'] ++ (['2', '3', '4'] ++ '.' :: ['5', '6']) ∧
    normalizeChars (['1'] ++ ',' :: ['2', '3', '4']) = ['1'] ++ '.' :: ['2', '3', '4'] := by
  have h := C7_separator_normalization ['1'] ['2', '3', '4'] ['5', '6']
    (by decide) (by decide) (by decide)
  exact ⟨h.1, (C7_separator_normalization ['1'] ['5', '6'] ['2', '3', '4']
    (by decide) (by decide) (by decide)).2.2.1⟩

/-! ## Date formatting and parsing lemmas -/

theorem digitChar_isDigit (n : Nat) (h : n < 10) :
    isDigitChar (digitChar n) = true := by
  interval_cases n <;> decide

theorem digitVal_digitChar (n : Nat) (h : n < 10) : digitVal (digitChar n) = n := by
  interval_cases n <;> decide

theorem isDigit_digitChar_mod (m : Nat) : isDigitChar (digitChar (m % 10)) = true :=
  digitChar_isDigit _ (Nat.mod_lt _ (by norm_num))

theorem digitVal_digitChar_mod (m : Nat) : digitVal (digitChar (m % 10)) = m % 10 :=
  digitVal_digitChar _ (Nat.mod_lt _ (by norm_num))

theorem allDigits_pad4 (n : Nat) : allDigits (pad4 n) = true := by
  simp [pad4, allDigits, isDigit_digitChar_mod]

theorem allDigits_pad2 (n : Nat) : allDigits (pad2 n) = true := by
  simp [pad2, allDigits, isDigit_digitChar_mod]

theorem natOfDigits_pad4 (n : Nat) (h : n ≤ 9999) : natOfDigits (pad4 n) = n := by
  simp only [pad4, natOfDigits, List.foldl_cons, List.foldl_nil,
    digitVal_digitChar_mod]
  omega

theorem natOfDigits_pad2 (n : Nat) (h : n ≤ 99) : natOfDigits (pad2 n) = n := by
  simp only [pad2, natOfDigits, List.foldl_cons, List.foldl_nil,
    digitVal_digitChar_mod]
  omega

theorem splitOnChar_ne_nil (sep : Char) (l : List Char) :
    splitOnChar sep l ≠ [] := by
  cases l with
  | nil => simp [splitOnChar]
  | cons c rest =>
    simp only [splitOnChar]
    rcases h : splitOnChar sep rest with _ | ⟨f, fs⟩
    · simp
    · by_cases hc : (c == sep) = true <;> simp [hc]

theorem splitOnChar_not_mem (sep : Char) (l : List Char) (h : sep ∉ l) :
    splitOnChar sep l = [l] := by
  induction l with
  | nil => rfl
  | cons c rest ih =>
    have hc : (c == sep) = false :=
      beq_eq_false_iff_ne.mpr (fun e => h (e ▸ List.mem_cons_self c rest))
    have hr : sep ∉ rest := fun hm => h (List.mem_cons_of_mem _ hm)
    simp [splitOnChar, ih hr, hc]

theorem splitOnChar_append (sep : Char) (xs ys : List Char) (h : sep ∉ xs) :
    splitOnChar sep (xs ++ sep :: ys) = xs :: splitOnChar sep ys := by
  induction xs with
  | nil =>
    simp only [List.nil_append, splitOnChar]
    rcases hs : splitOnChar sep ys with _ | ⟨f, fs⟩
    · exact absurd hs (splitOnChar_ne_nil sep ys)
    · simp
  | cons x rest ih =>
    have hx : (x == sep) = false :=
      beq_eq_false_iff_ne.mpr (fun e => h (e ▸ List.mem_cons_self x rest))
    have hr : sep ∉ rest := fun hm => h (List.mem_cons_of_mem _ hm)
    simp only [List.cons_append, List.append_eq, splitOnChar, ih hr, hx,
      Bool.false_eq_true, if_false]

theorem daysInMonth_le31 (y m : Nat) : daysInMonth y m ≤ 31 := by
  unfold daysInMonth
  split_ifs <;> norm_num

theorem ValidB_bounds (d : Date) (h : d.ValidB = true) :
    1 ≤ d.year ∧ d.year ≤ 9999 ∧ 1 ≤ d.month ∧ d.month ≤ 12 ∧
      1 ≤ d.day ∧ d.day ≤ daysInMonth d.year d.month := by
  unfold Date.ValidB at h
  simp only [Bool.and_eq_true, decide_eq_true_eq] at h
  tauto

theorem parseDateISO_fmtISO (d : Date) (h : d.ValidB = true) :
    parseDateISO (fmtISO d) = some d := by
  obtain ⟨h1y, h2y, h1m, h2m, h1d, h2d⟩ := ValidB_bounds d h
  have hsplit : splitOnChar '-'
      (pad4 d.year ++ '-' :: (pad2 d.month ++ '-' :: pad2 d.day)) =
      [pad4 d.year, pad2 d.month, pad2 d.day] := by
    rw [splitOnChar_append '-' _ _
      (not_mem_of_digits _ (allDigits_pad4 _) '-' (by decide))]
    rw [splitOnChar_append '-' _ _
      (not_mem_of_digits _ (allDigits_pad2 _) '-' (by decide))]
    rw [splitOnChar_not_mem '-' _
      (not_mem_of_digits _ (allDigits_pad2 _) '-' (by decide))]
  have hlen2m : (pad2 d.month).length = 2 := rfl
  have hlen2d : (pad2 d.day).length = 2 := rfl
  have hlen4 : (pad4 d.year).length = 4 := rfl
  have hpm : parseField2 12 (pad2 d.month) = some d.month := by
    simp [parseField2, hlen2m, allDigits_pad2,
      natOfDigits_pad2 d.month (by omega), h1m, h2m]
  have hpd : parseField2 31 (pad2 d.day) = some d.day := by
    have hle : d.day ≤ 31 := le_trans h2d (daysInMonth_le31 _ _)
    simp [parseField2, hlen2d, allDigits_pad2,
      natOfDigits_pad2 d.day (by omega), h1d, hle]
  show parseYMD ⟨FieldOrder.ymd, '-'⟩
      (pad4 d.year ++ '-' :: (pad2 d.month ++ '-' :: pad2 d.day)) = some d
  rw [parseYMD, hsplit]
  simp only [allDigits_pad4, hlen4, hpm, hpd, natOfDigits_pad4 d.year h2y]
  simp [h1y, h2d]

/-! ## C6: the DATE-detection threshold -/

/-- C6: `detect_column_type` classifies DATE exactly when strictly more than
50% of the first 20 sample values parse as a date under some of the nine
formats. Null/blank inputs are discarded upstream (the sole caller filters
falsy values before calling), so the sample is assumed blank-free; the
threshold `count > len(sample) * 0.5` is exact in floating point for samples
of at most 20 and is rendered `2 * count > len`. -/
theorem C6_date_threshold (values : List String) (hnb : "" ∉ values) :
    (detect_column_type values = ColumnType.DATE ↔
      2 * ((values.take 20).countP parsesAsDate) > (values.take 20).length) := by
  by_cases hem : values.isEmpty = true
  · have hv : values = [] := List.isEmpty_iff.mp hem
    subst hv
    simp [detect_column_type, ColumnType.UNKNOWN, ColumnType.DATE]
  · have hfe : (values.take 20).filter (fun v => !v.isEmpty) = values.take 20 :=
      List.filter_eq_self.mpr (fun a ha => by
        have hmem : a ∈ values := List.take_subset _ _ ha
        have hne : a ≠ "" := fun h => hnb (h ▸ hmem)
        have h2 : a.isEmpty = false :=
          Bool.eq_false_iff.mpr (fun h => hne ((String.isEmpty_iff a).mp h))
        simp [h2])
    simp only [detect_column_type, hfe]
    rw [if_neg hem]
    by_cases hth : 2 * (values.take 20).countP parsesAsDate > (values.take 20).length
    · rw [if_pos hth]
      exact ⟨fun _ => hth, fun _ => rfl⟩
    · rw [if_neg hth]
      constructor
      · intro hc
        exfalso
        by_cases hn :
            2 * (values.take 20).countP parsesAsNumber > (values.take 20).length
        · rw [if_pos hn] at hc
          exact absurd hc (by decide)
        · rw [if_neg hn] at hc
          exact absurd hc (by decide)
      · intro hc
        exact absurd hc hth

/-- Witness for C6: with 11 of 20 parsing dates the column is DATE, with 10
of 20 it is not (the boundary is strict majority). -/
theorem C6_witness :
    detect_column_type
        (List.replicate 11 "2020-01-01" ++ List.replicate 9 "x") =
      ColumnType.DATE ∧
    ¬ (detect_column_type
        (List.replicate 10 "2020-01-01" ++ List.replicate 10 "x") =
      ColumnType.DATE) := by
  constructor
  · exact (C6_date_threshold _ (by decide)).mpr (by decide)
  · intro hc
    exact absurd ((C6_date_threshold _ (by decide)).mp hc) (by decide)

/-! ## C9: save/load round-trip -/

theorem wfDateEntry_date (d : Date) (h : wfDateEntry (ConfigVal.date d) = true) :
    Date.ValidB d = true := by
  simp only [wfDateEntry, goodDateB, Bool.and_eq_true] at h
  exact h.1

theorem wfDateEntry_str (s : String) (h : wfDateEntry (ConfigVal.str s) = true) :
    s = "" := by
  simp only [wfDateEntry, ConfigVal.truthy, Bool.not_not] at h
  exact (String.isEmpty_iff s).mp h

theorem wfCfgSaveB_entry (c : FilterConfig)
    (hwf : wfCfgSaveB ColumnType.DATE c = true) (k : String) (v : ConfigVal)
    (hk : (k == "from" || k == "to") = true) (h : fcGet c k = some v) :
    wfDateEntry v = true := by
  have hall := List.all_eq_true.mp hwf (k, v) (mem_of_fcGet c k v h)
  simpa [hk] using hall

theorem convertKeyDate_of_get_nondate (k : String) (x : FilterConfig)
    (h : isSomeDateOpt (fcGet x k) = false) : convertKeyDate k x = x := by
  unfold convertKeyDate
  rcases hg : fcGet x k with _ | v
  · simp [hg]
  · cases v with
    | date d =>
      rw [hg] at h
      simp [isSomeDateOpt] at h
    | str s => simp [hg]
    | strList l => simp [hg]
    | num q => simp [hg]

theorem convertKeyDate_of_get_date (k : String) (x : FilterConfig) (d : Date)
    (h : fcGet x k = some (ConfigVal.date d)) :
    convertKeyDate k x = fcSet x k (ConfigVal.str (fmtISO d)) := by
  unfold convertKeyDate
  rw [h]

theorem parseKeyDate_of_get_none (k : String) (x : FilterConfig)
    (h : fcGet x k = none) : parseKeyDate k x = x := by
  unfold parseKeyDate
  rw [h]

theorem parseKeyDate_of_get_num (k : String) (x : FilterConfig) (q : Rat)
    (h : fcGet x k = some (ConfigVal.num q)) : parseKeyDate k x = x := by
  unfold parseKeyDate
  rw [h]

theorem parseKeyDate_of_get_strList (k : String) (x : FilterConfig)
    (l : List String) (h : fcGet x k = some (ConfigVal.strList l)) :
    parseKeyDate k x = x := by
  unfold parseKeyDate
  rw [h]

theorem parseKeyDate_of_get_date (k : String) (x : FilterConfig) (d : Date)
    (h : fcGet x k = some (ConfigVal.date d)) : parseKeyDate k x = x := by
  unfold parseKeyDate
  rw [h]

theorem parseKeyDate_of_get_badstr (k : String) (x : FilterConfig) (s : String)
    (h : fcGet x k = some (ConfigVal.str s)) (hp : parseDateISO s = none) :
    parseKeyDate k x = x := by
  unfold parseKeyDate
  rw [h]
  show (match parseDateISO s with
        | some d => fcSet x k (ConfigVal.date d)
        | none => x) = x
  rw [hp]

theorem parseKeyDate_of_get_str (k : String) (x : FilterConfig) (s : String)
    (d : Date) (h : fcGet x k = some (ConfigVal.str s))
    (hp : parseDateISO s = some d) :
    parseKeyDate k x = fcSet x k (ConfigVal.date d) := by
  unfold parseKeyDate
  rw [h]
  show (match parseDateISO s with
        | some e => fcSet x k (ConfigVal.date e)
        | none => x) = fcSet x k (ConfigVal.date d)
  rw [hp]

theorem parseKey_convertKey (k : String) (c : FilterConfig)
    (hwf : ∀ v, fcGet c k = some v → wfDateEntry v = true) :
    parseKeyDate k (convertKeyDate k c) = c := by
  rcases h : fcGet c k with _ | v
  · rw [convertKeyDate_of_get_nondate k c (by rw [h]; rfl),
      parseKeyDate_of_get_none k c h]
  · cases v with
    | str s =>
      have hs : s = "" := wfDateEntry_str s (hwf _ h)
      subst hs
      rw [convertKeyDate_of_get_nondate k c (by rw [h]; rfl),
        parseKeyDate_of_get_badstr k c "" h (by rfl)]
    | strList l =>
      rw [convertKeyDate_of_get_nondate k c (by rw [h]; rfl),
        parseKeyDate_of_get_strList k c l h]
    | num q =>
      rw [convertKeyDate_of_get_nondate k c (by rw [h]; rfl),
        parseKeyDate_of_get_num k c q h]
    | date d =>
      have hval : Date.ValidB d = true := wfDateEntry_date d (hwf _ h)
      rw [convertKeyDate_of_get_date k c d h,
        parseKeyDate_of_get_str k _ (fmtISO d) d (fcGet_fcSet_same c k _)
          (parseDateISO_fmtISO d hval),
        fcSet_fcSet_same, fcSet_eq_self c k _ h]

theorem fcGet_convertKeyDate_other (k k2 : String) (c : FilterConfig)
    (h : k2 ≠ k) : fcGet (convertKeyDate k c) k2 = fcGet c k2 := by
  unfold convertKeyDate
  rcases hg : fcGet c k with _ | v
  · simp [hg]
  · cases v with
    | date d =>
      simp only [hg]
      exact fcGet_fcSet_other c k k2 _ h
    | str s => simp [hg]
    | strList l => simp [hg]
    | num q => simp [hg]

theorem parseConfigDates_convertConfigDates (c : FilterConfig)
    (hwf : wfCfgSaveB ColumnType.DATE c = true) :
    parseConfigDates (convertConfigDates c) = c := by
  have hwfF : ∀ v, fcGet c "from" = some v → wfDateEntry v = true :=
    fun v h => wfCfgSaveB_entry c hwf "from" v (by decide) h
  have hwfT : ∀ v, fcGet c "to" = some v → wfDateEntry v = true :=
    fun v h => wfCfgSaveB_entry c hwf "to" v (by decide) h
  have hget1 : fcGet (convertKeyDate "from" c) "to" = fcGet c "to" :=
    fcGet_convertKeyDate_other "from" "to" c (by decide)
  show parseKeyDate "to"
      (parseKeyDate "from" (convertKeyDate "to" (convertKeyDate "from" c))) = c
  rcases hto : fcGet c "to" with _ | tv
  · rw [convertKeyDate_of_get_nondate "to" _ (by rw [hget1, hto]; rfl),
      parseKey_convertKey "from" c hwfF, parseKeyDate_of_get_none "to" c hto]
  · cases tv with
    | str s =>
      have hs : s = "" := wfDateEntry_str s (hwfT _ hto)
      subst hs
      rw [convertKeyDate_of_get_nondate "to" _ (by rw [hget1, hto]; rfl),
        parseKey_convertKey "from" c hwfF,
        parseKeyDate_of_get_badstr "to" c "" hto (by rfl)]
    | strList l =>
      rw [convertKeyDate_of_get_nondate "to" _ (by rw [hget1, hto]; rfl),
        parseKey_convertKey "from" c hwfF,
        parseKeyDate_of_get_strList "to" c l hto]
    | num q =>
      rw [convertKeyDate_of_get_nondate "to" _ (by rw [hget1, hto]; rfl),
        parseKey_convertKey "from" c hwfF,
        parseKeyDate_of_get_num "to" c q hto]
    | date dT =>
      have hvalT : Date.ValidB dT = true := wfDateEntry_date dT (hwfT _ hto)
      rw [convertKeyDate_of_get_date "to" _ dT (by rw [hget1]; exact hto)]
      rcases hfrom : fcGet c "from" with _ | fv
      · rw [convertKeyDate_of_get_nondate "from" c (by rw [hfrom]; rfl),
          parseKeyDate_of_get_none "from" _
            (by rw [fcGet_fcSet_other c "to" "from" _ (by decide)]; exact hfrom),
          parseKeyDate_of_get_str "to" _ (fmtISO dT) dT (fcGet_fcSet_same c "to" _)
            (parseDateISO_fmtISO dT hvalT),
          fcSet_fcSet_same, fcSet_eq_self c "to" _ hto]
      · cases fv with
        | str s =>
          have hs : s = "" := wfDateEntry_str s (hwfF _ hfrom)
          subst hs
          rw [convertKeyDate_of_get_nondate "from" c (by rw [hfrom]; rfl),
            parseKeyDate_of_get_badstr "from" _ ""
              (by rw [fcGet_fcSet_other c "to" "from" _ (by decide)]; exact hfrom)
              (by rfl),
            parseKeyDate_of_get_str "to" _ (fmtISO dT) dT (fcGet_fcSet_same c "to" _)
              (parseDateISO_fmtISO dT hvalT),
            fcSet_fcSet_same, fcSet_eq_self c "to" _ hto]
        | strList l =>
          rw [convertKeyDate_of_get_nondate "from" c (by rw [hfrom]; rfl),
            parseKeyDate_of_get_strList "from" _ l
              (by rw [fcGet_fcSet_other c "to" "from" _ (by decide)]; exact hfrom),
            parseKeyDate_of_get_str "to" _ (fmtISO dT) dT (fcGet_fcSet_same c "to" _)
              (parseDateISO_fmtISO dT hvalT),
            fcSet_fcSet_same, fcSet_eq_self c "to" _ hto]
        | num q =>
          rw [convertKeyDate_of_get_nondate "from" c (by rw [hfrom]; rfl),
            parseKeyDate_of_get_num "from" _ q
              (by rw [fcGet_fcSet_other c "to" "from" _ (by decide)]; exact hfrom),
            parseKeyDate_of_get_str "to" _ (fmtISO dT) dT (fcGet_fcSet_same c "to" _)
              (parseDateISO_fmtISO dT hvalT),
            fcSet_fcSet_same, fcSet_eq_self c "to" _ hto]
        | date dF =>
          have hvalF : Date.ValidB dF = true := wfDateEntry_date dF (hwfF _ hfrom)
          rw [convertKeyDate_of_get_date "from" c dF hfrom]
          rw [parseKeyDate_of_get_str "from" _ (fmtISO dF) dF
            (by
              rw [fcGet_fcSet_other _ "to" "from" _ (by decide)]
              exact fcGet_fcSet_same c "from" _)
            (parseDateISO_fmtISO dF hvalF)]
          rw [fcSet_comm_of_mem (fcSet c "from" (ConfigVal.str (fmtISO dF)))
            "to" "from" (ConfigVal.str (fmtISO dT)) (ConfigVal.date dF)
            (by decide)
            (by rw [fcGet_fcSet_other c "from" "to" _ (by decide), hto]; rfl)]
          rw [fcSet_fcSet_same, fcSet_eq_self c "from" _ hfrom]
          rw [parseKeyDate_of_get_str "to" _ (fmtISO dT) dT
            (fcGet_fcSet_same c "to" _) (parseDateISO_fmtISO dT hvalT)]
          rw [fcSet_fcSet_same, fcSet_eq_self c "to" _ hto]

theorem roundtrip_filters (ct : List (String × String)) (l : List DimensionalFilter)
    (hk : ∀ f ∈ l, keyMem f.column ct = true)
    (hw : ∀ f ∈ l, wfCfgSaveB f.column_type f.filter_config = true) :
    List.filterMap
      (fun fd => if keyMem fd.column ct then
        some (if fd.column_type == ColumnType.DATE then
                { fd with filter_config := parseConfigDates fd.filter_config }
              else fd)
        else none)
      (l.map (fun f => if f.column_type == ColumnType.DATE then
        { f with filter_config := convertConfigDates f.filter_config }
      else f)) = l := by
  induction l with
  | nil => rfl
  | cons f rest ih =>
    have hkf := hk f (List.mem_cons_self f rest)
    have hwf := hw f (List.mem_cons_self f rest)
    have htail := ih (fun g hg => hk g (List.mem_cons_of_mem _ hg))
      (fun g hg => hw g (List.mem_cons_of_mem _ hg))
    rw [List.map_cons, List.filterMap_cons]
    by_cases hd : (f.column_type == ColumnType.DATE) = true
    · have hdate : f.column_type = ColumnType.DATE := by simpa using hd
      rw [hdate] at hwf
      rw [if_pos hd]
      simp only [hkf, hd, eq_self_iff_true, if_true]
      rw [parseConfigDates_convertConfigDates _ hwf, htail]
    · rw [if_neg hd]
      simp only [hkf, eq_self_iff_true, if_true]
      rw [if_neg hd, htail]

theorem roundtrip_rules (ct : List (String × String)) (l : List SamplingRule)
    (hk : ∀ r ∈ l, keyMem r.column ct = true)
    (hw : ∀ r ∈ l, wfCfgSaveB r.column_type r.filter_config = true) :
    List.filterMap
      (fun rd => if keyMem rd.column ct then
        some (if rd.column_type == ColumnType.DATE then
                { rd with filter_config := parseConfigDates rd.filter_config }
              else rd)
        else none)
      (l.map (fun r => if r.column_type == ColumnType.DATE then
        { r with filter_config := convertConfigDates r.filter_config }
      else r)) = l := by
  induction l with
  | nil => rfl
  | cons r rest ih =>
    have hkr := hk r (List.mem_cons_self r rest)
    have hwr := hw r (List.mem_cons_self r rest)
    have htail := ih (fun g hg => hk g (List.mem_cons_of_mem _ hg))
      (fun g hg => hw g (List.mem_cons_of_mem _ hg))
    rw [List.map_cons, List.filterMap_cons]
    by_cases hd : (r.column_type == ColumnType.DATE) = true
    · have hdate : r.column_type = ColumnType.DATE := by simpa using hd
      rw [hdate] at hwr
      rw [if_pos hd]
      simp only [hkr, hd, eq_self_iff_true, if_true]
      rw [parseConfigDates_convertConfigDates _ hwr, htail]
    · rw [if_neg hd]
      simp only [hkr, eq_self_iff_true, if_true]
      rw [if_neg hd, htail]

/-- C9: save/load round-trip — for a configuration whose filters and rules
name columns of the loaded dataset and are serializable (DATE bounds hold
representable datetimes with four-digit-rendered years, or falsy placeholders;
no datetimes outside DATE bounds), `save_configuration` followed by
`load_configuration` of the written record restores `global_filters` and
`sampling_rules` deep-equal to their values before the save; DATE bounds go
out as `YYYY-MM-DD` strings and come back as equal datetimes. -/
theorem C9_roundtrip (h : DataHandler)
    (hkF : ∀ f ∈ h.global_filters, keyMem f.column h.column_types = true)
    (hkR : ∀ r ∈ h.sampling_rules, keyMem r.column h.column_types = true)
    (hwF : ∀ f ∈ h.global_filters, wfCfgSaveB f.column_type f.filter_config = true)
    (hwR : ∀ r ∈ h.sampling_rules, wfCfgSaveB r.column_type r.filter_config = true) :
    load_configuration (save_configuration h).2 (save_configuration h).1 = h := by
  simp only [save_configuration, load_configuration]
  rw [roundtrip_filters h.column_types h.global_filters hkF hwF,
    roundtrip_rules h.column_types h.sampling_rules hkR hwR]

/-- Witness for C9 at a concrete handler holding a DATE filter with both
bounds and a TEXT rule. -/
theorem C9_witness :
    load_configuration (save_configuration handlerC9).2
      (save_configuration handlerC9).1 = handlerC9 :=
  C9_roundtrip handlerC9 (by decide) (by decide) (by decide) (by decide)

/-! ## C8: the generated SQL text carries no configured literal -/

theorem numBoundClause_eq_if (o : Option ConfigVal) (s : String) :
    numBoundClause o s = (if o.isSome then [s] else []) := by
  rcases o with _ | v <;> rfl

theorem dateBoundClause_eq_if (o : Option ConfigVal) (s : String) :
    dateBoundClause o s = (if isSomeDateOpt o then [s] else []) := by
  rcases o with _ | v
  · rfl
  · cases v <;> rfl

/-- C8: the WHERE text produced by `to_sql_where` depends only on the column
name, the column type and the configuration's shape (mode tag, number of
`equals` values, pattern emptiness, bound presence) — never on the configured
literal values, which travel exclusively through the ordered `?`-parameter
list. Equivalently (as the claim puts it): two same-shaped configurations
produce identical predicate text. -/
theorem C8_parameterized_text (f g : DimensionalFilter)
    (hcol : f.column = g.column) (hty : f.column_type = g.column_type)
    (hsh : shapeOf f = shapeOf g) :
    (DimensionalFilter.to_sql_where f).1 = (DimensionalFilter.to_sql_where g).1 := by
  simp only [shapeOf, SqlShape.mk.injEq] at hsh
  obtain ⟨h1, h2, h3, h4, h5, h6, h7, h8⟩ := hsh
  have hveq : (cfgValues f.filter_config).isEmpty =
      (cfgValues g.filter_config).isEmpty := by
    rcases hf0 : cfgValues f.filter_config with _ | ⟨x, xs⟩ <;>
      rcases hg0 : cfgValues g.filter_config with _ | ⟨y, ys⟩
    · rfl
    · rw [hf0, hg0] at h3
      simp at h3
    · rw [hf0, hg0] at h3
      simp at h3
    · rfl
  simp only [DimensionalFilter.to_sql_where, numBoundClause_eq_if,
    dateBoundClause_eq_if]
  rw [hcol, hty, h1, h2, h4, hveq, h3, h5, h6, h7, h8]
  simp only [apply_ite (Prod.fst (α := String) (β := List ConfigVal))]

/-- Witness for C8: two TEXT-equals filters with different literal value sets
yield identical predicate text (`c IN (?,?)`) while their parameter lists
differ — the literals appear only as bound parameters. -/
theorem C8_witness :
    (DimensionalFilter.to_sql_where
        ⟨"c", ColumnType.TEXT,
         [("type", ConfigVal.str "equals"),
          ("values", ConfigVal.strList ["alpha", "beta"])]⟩).1 =
      (DimensionalFilter.to_sql_where
        ⟨"c", ColumnType.TEXT,
         [("type", ConfigVal.str "equals"),
          ("values", ConfigVal.strList ["x", "y"])]⟩).1 ∧
    (DimensionalFilter.to_sql_where
        ⟨"c", ColumnType.TEXT,
         [("type", ConfigVal.str "equals"),
          ("values", ConfigVal.strList ["alpha", "beta"])]⟩).2 ≠
      (DimensionalFilter.to_sql_where
        ⟨"c", ColumnType.TEXT,
         [("type", ConfigVal.str "equals"),
          ("values", ConfigVal.strList ["x", "y"])]⟩).2 :=
  ⟨C8_parameterized_text _ _ rfl rfl (by decide), by decide⟩

/-! ## C3: LIKE-pattern lemmas -/

/-- `LIKE '%'` matches every text. -/
theorem sqlLike_pct (s : List Char) : sqlLike ['%'] s = true := by
  induction s with
  | nil => simp [sqlLike]
  | cons c ss ih => simp [sqlLike, ih]

/-- Unpacking `noWild` over a cons. -/
theorem noWild_head (a : Char) (ps : List Char) (h : noWild (a :: ps) = true) :
    a ≠ '%' ∧ a ≠ '_' ∧ noWild ps = true := by
  simp only [noWild, List.all_cons, Bool.and_eq_true, bne_iff_ne] at h
  exact ⟨h.1.1, h.1.2, List.all_eq_true.mpr (fun x hx => by
    have := List.all_eq_true.mp h.2 x hx
    simpa using this)⟩

/-- `LIKE 'p%'` with a wildcard-free `p` is a case-insensitive prefix test. -/
theorem sqlLike_plain (p : List Char) (hw : noWild p = true) (s : List Char) :
    sqlLike (p ++ ['%']) s
      = isPrefixL (p.map Char.toLower) (s.map Char.toLower) := by
  induction p generalizing s with
  | nil => simp [isPrefixL, sqlLike_pct s]
  | cons a ps ih =>
    obtain ⟨ha1, ha2, hw2⟩ := noWild_head a ps hw
    cases s with
    | nil => simp [sqlLike, ha1, isPrefixL]
    | cons c ss =>
      simp [sqlLike, ha1, ha2, isPrefixL, ih hw2 ss]

/-- Only the empty needle is a prefix of the empty text. -/
theorem isPrefixL_nil_right (n : List Char) : isPrefixL n [] = n.isEmpty := by
  cases n <;> rfl

/-- `LIKE '%p%'` with a wildcard-free `p` is the substring test under
SQLite's ASCII-only case folding (`Char.toLower`). -/
theorem sqlLike_infix (p : List Char) (hw : noWild p = true) (s : List Char) :
    sqlLike ('%' :: (p ++ ['%'])) s
      = isInfixL (p.map Char.toLower) (s.map Char.toLower) := by
  induction s with
  | nil =>
    simp only [sqlLike, if_true]
    rw [sqlLike_plain p hw []]
    simp only [List.map_nil]
    rw [isPrefixL_nil_right]
    rfl
  | cons c ss ih =>
    simp only [sqlLike, if_true]
    rw [sqlLike_plain p hw (c :: ss), ih]
    simp [isInfixL]

/-- On an ASCII character Python's `str.lower()` coincides with SQLite's
ASCII-only folding. -/
theorem pyLowerChar_ascii (c : Char) (h : c.toNat < 128) :
    pyLowerChar c = c.toLower := by
  simp only [pyLowerChar, Char.toLower]
  split_ifs with h1 h2
  · rfl
  · exact absurd h2.1 (by omega)
  · rfl

/-- On ASCII text the two case foldings produce the same characters, so
`matches`' lowercasing and `LIKE`'s folding agree. -/
theorem lowerChars_ascii (l : List Char) (h : asciiOnly l = true) :
    lowerChars l = l.map Char.toLower := by
  unfold lowerChars
  apply List.map_congr_left
  intro a ha
  have hm := List.all_eq_true.mp h a ha
  exact pyLowerChar_ascii a (by simpa [isAsciiChar] using hm)

theorem foldl_digits_lt (l : List Char) (acc : Nat) (h : allDigits l = true) :
    l.foldl (fun n c => 10 * n + digitVal c) acc < (acc + 1) * 10 ^ l.length := by
  induction l generalizing acc with
  | nil => simp
  | cons c cs ih =>
    simp only [allDigits, List.all_cons, Bool.and_eq_true] at h
    have hc9 : digitVal c ≤ 9 := by
      have hc := h.1
      simp only [isDigitChar, Bool.and_eq_true, decide_eq_true_eq] at hc
      unfold digitVal
      omega
    have hcs : allDigits cs = true := h.2
    calc cs.foldl (fun n c => 10 * n + digitVal c) (10 * acc + digitVal c)
        < (10 * acc + digitVal c + 1) * 10 ^ cs.length := ih _ hcs
      _ ≤ (10 * (acc + 1)) * 10 ^ cs.length :=
          Nat.mul_le_mul_right _ (by omega)
      _ = (acc + 1) * 10 ^ (cs.length + 1) := by ring

theorem natOfDigits_lt (l : List Char) (h : allDigits l = true) :
    natOfDigits l < 10 ^ l.length := by
  have := foldl_digits_lt l 0 h
  simpa [natOfDigits] using this

theorem parseField2_some (mx v : Nat) (cs : List Char)
    (h : parseField2 mx cs = some v) : 1 ≤ v ∧ v ≤ mx := by
  unfold parseField2 at h
  split at h
  · exact absurd h (by simp)
  · dsimp only [] at h
    split at h
    next hcond =>
      simp only [Bool.and_eq_true, decide_eq_true_eq] at hcond
      rw [Option.some_inj] at h
      subst h
      exact hcond
    next => exact absurd h (by simp)

theorem parseYMD_valid (fmt : DateFmt) (cs : List Char) (d : Date)
    (h : parseYMD fmt cs = some d) : Date.ValidB d = true := by
  obtain ⟨ord, sep⟩ := fmt
  unfold parseYMD at h
  cases ord <;>
  · dsimp only [] at h
    split at h
    next =>
      split at h
      next hlen =>
        split at h
        next m dd hm hd =>
          split at h
          next hfin =>
            simp only [Bool.and_eq_true, decide_eq_true_eq, beq_iff_eq] at hlen hfin
            rw [Option.some_inj] at h
            subst h
            have hy := natOfDigits_lt _ hlen.2
            rw [hlen.1] at hy
            norm_num at hy
            obtain ⟨hm1, hm2⟩ := parseField2_some _ _ _ hm
            obtain ⟨hd1, hd2⟩ := parseField2_some _ _ _ hd
            simp only [Date.ValidB, Bool.and_eq_true, decide_eq_true_eq]
            refine ⟨⟨⟨⟨⟨?_, ?_⟩, ?_⟩, ?_⟩, ?_⟩, ?_⟩ <;> omega
          next => exact absurd h (by simp)
        next => exact absurd h (by simp)
      next => exact absurd h (by simp)
    next => exact absurd h (by simp)

theorem parseDateISO_valid (s : String) (d : Date)
    (h : parseDateISO s = some d) : Date.ValidB d = true :=
  parseYMD_valid _ _ _ h
theorem toNat_digitChar (n : Nat) (h : n < 10) : (digitChar n).toNat = 48 + n := by
  interval_cases n <;> decide

theorem toNat_digitChar_mod (n : Nat) : (digitChar (n % 10)).toNat = 48 + n % 10 :=
  toNat_digitChar _ (Nat.mod_lt _ (by norm_num))

theorem lex2_iff (a1 a2 b1 b2 : Nat) (ha2 : a2 < 10) (hb2 : b2 < 10) (X : Prop) :
    (48 + a1 < 48 + b1 ∨ (48 + a1 = 48 + b1 ∧
      (48 + a2 < 48 + b2 ∨ (48 + a2 = 48 + b2 ∧ X))))
    ↔ (10 * a1 + a2 < 10 * b1 + b2 ∨ (10 * a1 + a2 = 10 * b1 + b2 ∧ X)) := by
  constructor
  · rintro (h | ⟨h1, h | ⟨h2, hX⟩⟩)
    · left; omega
    · left; omega
    · right; exact ⟨by omega, hX⟩
  · rintro (h | ⟨h, hX⟩)
    · rcases Nat.lt_trichotomy a1 b1 with h1 | h1 | h1
      · left; omega
      · right; exact ⟨by omega, Or.inl (by omega)⟩
      · exfalso; omega
    · right; exact ⟨by omega, Or.inr ⟨by omega, hX⟩⟩

theorem lex4_iff (a1 a2 a3 a4 b1 b2 b3 b4 : Nat)
    (ha : a2 < 10 ∧ a3 < 10 ∧ a4 < 10) (hb : b2 < 10 ∧ b3 < 10 ∧ b4 < 10)
    (X : Prop) :
    (48 + a1 < 48 + b1 ∨ (48 + a1 = 48 + b1 ∧ (48 + a2 < 48 + b2 ∨ (48 + a2 = 48 + b2 ∧
      (48 + a3 < 48 + b3 ∨ (48 + a3 = 48 + b3 ∧
        (48 + a4 < 48 + b4 ∨ (48 + a4 = 48 + b4 ∧ X))))))))
    ↔ (1000 * a1 + 100 * a2 + 10 * a3 + a4 < 1000 * b1 + 100 * b2 + 10 * b3 + b4 ∨
       (1000 * a1 + 100 * a2 + 10 * a3 + a4 = 1000 * b1 + 100 * b2 + 10 * b3 + b4 ∧ X)) := by
  obtain ⟨ha2, ha3, ha4⟩ := ha
  obtain ⟨hb2, hb3, hb4⟩ := hb
  constructor
  · rintro (h | ⟨h1, h | ⟨h2, h | ⟨h3, h | ⟨h4, hX⟩⟩⟩⟩)
    · left; omega
    · left; omega
    · left; omega
    · left; omega
    · right; exact ⟨by omega, hX⟩
  · rintro (h | ⟨h, hX⟩)
    · rcases Nat.lt_trichotomy a1 b1 with h1 | h1 | h1
      · left; omega
      · rcases Nat.lt_trichotomy a2 b2 with h2 | h2 | h2
        · right; exact ⟨by omega, Or.inl (by omega)⟩
        · rcases Nat.lt_trichotomy a3 b3 with h3 | h3 | h3
          · right; exact ⟨by omega, Or.inr ⟨by omega, Or.inl (by omega)⟩⟩
          · right
            exact ⟨by omega, Or.inr ⟨by omega, Or.inr ⟨by omega, Or.inl (by omega)⟩⟩⟩
          · exfalso; omega
        · exfalso; omega
      · exfalso; omega
    · right
      refine ⟨by omega, Or.inr ⟨by omega, Or.inr ⟨by omega, Or.inr ⟨by omega, hX⟩⟩⟩⟩

theorem bytesLe_fmtISO (a b : Date) (ha : a.ValidB = true) (hb : b.ValidB = true) :
    bytesLe (fmtISOChars a) (fmtISOChars b) = !(Date.ltB b a) := by
  obtain ⟨ha1, ha2, ha3, ha4, ha5, ha6⟩ := ValidB_bounds a ha
  obtain ⟨hb1, hb2, hb3, hb4, hb5, hb6⟩ := ValidB_bounds b hb
  have hda : a.day ≤ 31 := le_trans ha6 (daysInMonth_le31 _ _)
  have hdb : b.day ≤ 31 := le_trans hb6 (daysInMonth_le31 _ _)
  have hdash : ('-').toNat = 45 := rfl
  have ey1 : a.year = 1000 * (a.year / 1000 % 10) + 100 * (a.year / 100 % 10) +
      10 * (a.year / 10 % 10) + a.year % 10 := by omega
  have ey2 : b.year = 1000 * (b.year / 1000 % 10) + 100 * (b.year / 100 % 10) +
      10 * (b.year / 10 % 10) + b.year % 10 := by omega
  have em1 : a.month = 10 * (a.month / 10 % 10) + a.month % 10 := by omega
  have em2 : b.month = 10 * (b.month / 10 % 10) + b.month % 10 := by omega
  have ed1 : a.day = 10 * (a.day / 10 % 10) + a.day % 10 := by omega
  have ed2 : b.day = 10 * (b.day / 10 % 10) + b.day % 10 := by omega
  simp only [fmtISOChars, pad4, pad2, List.cons_append, List.nil_append, bytesLe,
    toNat_digitChar_mod, hdash, Date.ltB]
  rw [Bool.eq_iff_iff]
  simp only [Bool.or_eq_true, Bool.and_eq_true, decide_eq_true_eq, beq_iff_eq,
    Bool.not_eq_true', Bool.or_eq_false_iff, Bool.and_eq_false_iff,
    decide_eq_false_iff_not, beq_eq_false_iff_ne, not_lt, ne_eq]
  generalize g1 : a.year / 1000 % 10 = p1 at ey1 ⊢
  generalize g2 : a.year / 100 % 10 = p2 at ey1 ⊢
  generalize g3 : a.year / 10 % 10 = p3 at ey1 ⊢
  generalize g4 : a.year % 10 = p4 at ey1 ⊢
  generalize g5 : b.year / 1000 % 10 = q1 at ey2 ⊢
  generalize g6 : b.year / 100 % 10 = q2 at ey2 ⊢
  generalize g7 : b.year / 10 % 10 = q3 at ey2 ⊢
  generalize g8 : b.year % 10 = q4 at ey2 ⊢
  generalize g9 : a.month / 10 % 10 = m1 at em1 ⊢
  generalize g10 : a.month % 10 = m2 at em1 ⊢
  generalize g11 : b.month / 10 % 10 = n1 at em2 ⊢
  generalize g12 : b.month % 10 = n2 at em2 ⊢
  generalize g13 : a.day / 10 % 10 = r1 at ed1 ⊢
  generalize g14 : a.day % 10 = r2 at ed1 ⊢
  generalize g15 : b.day / 10 % 10 = s1 at ed2 ⊢
  generalize g16 : b.day % 10 = s2 at ed2 ⊢
  have c2 : p2 < 10 := g2 ▸ Nat.mod_lt _ (by norm_num)
  have c3 : p3 < 10 := g3 ▸ Nat.mod_lt _ (by norm_num)
  have c4 : p4 < 10 := g4 ▸ Nat.mod_lt _ (by norm_num)
  have c6 : q2 < 10 := g6 ▸ Nat.mod_lt _ (by norm_num)
  have c7 : q3 < 10 := g7 ▸ Nat.mod_lt _ (by norm_num)
  have c8 : q4 < 10 := g8 ▸ Nat.mod_lt _ (by norm_num)
  have c10 : m2 < 10 := g10 ▸ Nat.mod_lt _ (by norm_num)
  have c12 : n2 < 10 := g12 ▸ Nat.mod_lt _ (by norm_num)
  have c14 : r2 < 10 := g14 ▸ Nat.mod_lt _ (by norm_num)
  have c16 : s2 < 10 := g16 ▸ Nat.mod_lt _ (by norm_num)
  clear g1 g2 g3 g4 g5 g6 g7 g8 g9 g10 g11 g12 g13 g14 g15 g16
  simp only [lt_self_iff_false, false_or, true_and]
  rw [lex2_iff r1 r2 s1 s2 c14 c16 True]
  rw [lex2_iff m1 m2 n1 n2 c10 c12 _]
  rw [lex4_iff p1 p2 p3 p4 q1 q2 q3 q4 ⟨c2, c3, c4⟩ ⟨c6, c7, c8⟩ _]
  rw [← ey1, ← ey2, ← em1, ← em2, ← ed1, ← ed2]
  clear ey1 ey2 em1 em2 ed1 ed2 c2 c3 c4 c6 c7 c8 c10 c12 c14 c16
  constructor
  · rintro (h | ⟨h1, h | ⟨h2, h | ⟨h3, -⟩⟩⟩)
    · exact ⟨by omega, Or.inl (by omega)⟩
    · exact ⟨by omega, Or.inr ⟨by omega, Or.inl (by omega)⟩⟩
    · exact ⟨by omega, Or.inr ⟨by omega, Or.inr (by omega)⟩⟩
    · exact ⟨by omega, Or.inr ⟨by omega, Or.inr (by omega)⟩⟩
  · rintro ⟨hy, h | ⟨hm, h2 | hd⟩⟩
    · left
      omega
    · rcases Nat.lt_or_ge a.year b.year with h3 | h3
      · left
        exact h3
      · right
        exact ⟨by omega, Or.inl (by omega)⟩
    · rcases Nat.lt_or_ge a.year b.year with h3 | h3
      · left
        exact h3
      · right
        refine ⟨by omega, ?_⟩
        rcases Nat.lt_or_ge a.month b.month with h4 | h4
        · left
          exact h4
        · right
          refine ⟨by omega, ?_⟩
          rcases Nat.lt_or_ge a.day b.day with h5 | h5
          · left
            exact h5
          · right
            exact ⟨by omega, trivial⟩
theorem rangeMaxNum_sql (c : FilterConfig) (q : Rat)
    (hmax : isOptNum (fcGet c "max") = true) :
    rangeMaxNum c (.num q) =
      (match fcGet c "max" with
       | some p => sqlLeParam q p
       | none => true) := by
  unfold rangeMaxNum
  rcases hM : fcGet c "max" with _ | Mv
  · rfl
  · cases Mv with
    | num m =>
      simp only [ConfigVal.toValue, pyLt?, sqlLeParam]
      by_cases h : m < q
      · simp [h, not_le.mpr h]
      · simp [h, not_lt.mp h]
    | str s => rw [hM] at hmax; simp [isOptNum] at hmax
    | strList l => rw [hM] at hmax; simp [isOptNum] at hmax
    | date d => rw [hM] at hmax; simp [isOptNum] at hmax

theorem rangeOkNum_sql (c : FilterConfig) (q : Rat)
    (hmin : isOptNum (fcGet c "min") = true)
    (hmax : isOptNum (fcGet c "max") = true) :
    rangeOkNum c (.num q) =
      ((match fcGet c "min" with
        | some p => sqlGeParam q p
        | none => true) &&
       (match fcGet c "max" with
        | some p => sqlLeParam q p
        | none => true)) := by
  unfold rangeOkNum
  rcases hm : fcGet c "min" with _ | mv
  · rw [rangeMaxNum_sql c q hmax]
    simp
  · cases mv with
    | num m =>
      simp only [ConfigVal.toValue, pyLt?, sqlGeParam]
      by_cases h : q < m
      · simp [h, not_le.mpr h]
      · simp only [h, decide_eq_true_eq, if_neg]
        rw [rangeMaxNum_sql c q hmax]
        simp [not_lt.mp h]
    | str s => rw [hm] at hmin; simp [isOptNum] at hmin
    | strList l => rw [hm] at hmin; simp [isOptNum] at hmin
    | date d => rw [hm] at hmin; simp [isOptNum] at hmin
theorem rangeToDate_sql (c : FilterConfig) (d : Date) (hd : Date.ValidB d = true)
    (hto : isOptValidDate (fcGet c "to") = true) :
    rangeToDate c (.date d) =
      (match fcGet c "to" with
       | some (.date b) => bytesLe (fmtISOChars d) (fmtISOChars b)
       | _ => true) := by
  unfold rangeToDate
  rcases hT : fcGet c "to" with _ | tv
  · rfl
  · cases tv with
    | date tb =>
      have hvb : Date.ValidB tb = true := by
        rw [hT] at hto
        simpa [isOptValidDate] using hto
      simp only [ConfigVal.truthy, ConfigVal.toValue, pyLt?]
      simp only [if_true]
      rw [bytesLe_fmtISO d tb hd hvb]
      cases hlt : Date.ltB tb d <;> simp [hlt]
    | str s => rw [hT] at hto; simp [isOptValidDate] at hto
    | strList l => rw [hT] at hto; simp [isOptValidDate] at hto
    | num q => rw [hT] at hto; simp [isOptValidDate] at hto

theorem rangeOkDate_sql (c : FilterConfig) (d : Date) (hd : Date.ValidB d = true)
    (hfrom : isOptValidDate (fcGet c "from") = true)
    (hto : isOptValidDate (fcGet c "to") = true) :
    rangeOkDate c (.date d) =
      ((match fcGet c "from" with
        | some (.date b) => bytesLe (fmtISOChars b) (fmtISOChars d)
        | _ => true) &&
       (match fcGet c "to" with
        | some (.date b) => bytesLe (fmtISOChars d) (fmtISOChars b)
        | _ => true)) := by
  unfold rangeOkDate
  rcases hF : fcGet c "from" with _ | fv
  · rw [rangeToDate_sql c d hd hto]
    simp
  · cases fv with
    | date fb =>
      have hvb : Date.ValidB fb = true := by
        rw [hF] at hfrom
        simpa [isOptValidDate] using hfrom
      simp only [ConfigVal.truthy, ConfigVal.toValue, pyLt?]
      simp only [if_true]
      rw [bytesLe_fmtISO fb d hvb hd]
      cases hlt : Date.ltB d fb
      · simp only [hlt, Bool.not_false, Bool.true_and]
        exact rangeToDate_sql c d hd hto
      · simp [hlt]
    | str s => rw [hF] at hfrom; simp [isOptValidDate] at hfrom
    | strList l => rw [hF] at hfrom; simp [isOptValidDate] at hfrom
    | num q => rw [hF] at hfrom; simp [isOptValidDate] at hfrom
theorem wfSqlCfg_text (c : FilterConfig) :
    wfSqlCfg ColumnType.TEXT c
      = (noWild (cfgPattern c).data && asciiOnly (cfgPattern c).data) := rfl

theorem wfSqlCfg_number (c : FilterConfig) :
    wfSqlCfg ColumnType.NUMBER c =
      (isOptNum (fcGet c "min") && isOptNum (fcGet c "max")) := rfl

theorem wfSqlCfg_date (c : FilterConfig) :
    wfSqlCfg ColumnType.DATE c =
      (isOptValidDate (fcGet c "from") && isOptValidDate (fcGet c "to")) := rfl

theorem wfSqlValue_text (v : Value) :
    wfSqlValue ColumnType.TEXT v
      = (match v with | .str s => asciiOnly s.data | _ => false) := rfl

theorem wfSqlValue_number (v : Value) :
    wfSqlValue ColumnType.NUMBER v =
      (match v with
       | .num _ => true
       | .str s =>
         (match pyFloat? s with
          | some q => sqliteAtof s.data == q
          | none => false)
       | _ => false) := rfl

theorem wfSqlValue_date (v : Value) :
    wfSqlValue ColumnType.DATE v =
      (match v with
       | .str s =>
         (match parseDateISO s with
          | some d => fmtISO d == s
          | none => false)
       | _ => false) := rfl
theorem matches_sql_text (nm col : String) (k : Nat) (cfg : FilterConfig)
    (row : Row) (s : String)
    (hcol : col.isEmpty = false) (hw : noWild (cfgPattern cfg).data = true)
    (hpa : asciiOnly (cfgPattern cfg).data = true)
    (hsa : asciiOnly s.data = true)
    (hv : row.get col = Value.str s) :
    SamplingRule.matches ⟨nm, col, ColumnType.TEXT, cfg, k⟩ row
      = sqlEvalFilter ⟨col, ColumnType.TEXT, cfg⟩ row := by
  by_cases hc : cfg = []
  · subst hc
    simp [SamplingRule.matches, sqlEvalFilter, hv, cfgTypeTag, cfgValues, fcGet]
  · have hce : cfg.isEmpty = false := by
      cases cfg with
      | nil => exact absurd rfl hc
      | cons a l => rfl
    by_cases h1 : cfgTypeTag cfg = ConfigVal.str "equals"
    · by_cases h2 : cfgValues cfg = []
      · simp [SamplingRule.matches, sqlEvalFilter, hv, hcol, hce, h1, h2]
      · have h2' : (cfgValues cfg).isEmpty = false := by
          rcases h3 : cfgValues cfg with _ | ⟨a, l⟩
          · exact absurd h3 h2
          · rfl
        simp [SamplingRule.matches, sqlEvalFilter, hv, hcol, hce, h1, h2',
          pyStr, sqlInList]
    · by_cases h2 : cfgTypeTag cfg = ConfigVal.str "contains"
      · by_cases hp : (cfgPattern cfg).isEmpty = true
        · simp [SamplingRule.matches, sqlEvalFilter, hv, hcol, hce, h1, h2, hp]
        · have hp' : (cfgPattern cfg).isEmpty = false :=
            Bool.eq_false_iff.mpr hp
          simp [SamplingRule.matches, sqlEvalFilter, hv, hcol, hce, h1, h2, hp',
            sqlText, pyStr, sqlLike_infix _ hw, lowerChars_ascii _ hpa,
            lowerChars_ascii _ hsa]
      · simp [SamplingRule.matches, sqlEvalFilter, hv, hcol, hce, h1, h2]
theorem matches_sql_number (nm col : String) (k : Nat) (cfg : FilterConfig)
    (row : Row)
    (hcol : col.isEmpty = false)
    (hmin : isOptNum (fcGet cfg "min") = true)
    (hmax : isOptNum (fcGet cfg "max") = true)
    (hval : wfSqlValue ColumnType.NUMBER (row.get col) = true) :
    SamplingRule.matches ⟨nm, col, ColumnType.NUMBER, cfg, k⟩ row
      = sqlEvalFilter ⟨col, ColumnType.NUMBER, cfg⟩ row := by
  have hnt : ColumnType.NUMBER ≠ ColumnType.TEXT := by decide
  rw [wfSqlValue_number] at hval
  by_cases hc : cfg = []
  · subst hc
    rcases hv : row.get col with _ | s | q | dd
    · rw [hv] at hval
      simp at hval
    · rw [hv] at hval
      rcases hq : pyFloat? s with _ | q
      · have hval2 : (match pyFloat? s with
            | some q => sqliteAtof s.data == q
            | none => false) = true := hval
        rw [hq] at hval2
        simp at hval2
      · simp [SamplingRule.matches, sqlEvalFilter, hnt, hv, hq, rangeOkNum,
          rangeMaxNum, fcGet]
    · simp [SamplingRule.matches, sqlEvalFilter, hnt, hv, rangeOkNum,
        rangeMaxNum, fcGet]
    · rw [hv] at hval
      simp at hval
  · have hce : cfg.isEmpty = false := by
      cases cfg with
      | nil => exact absurd rfl hc
      | cons a l => rfl
    rcases hv : row.get col with _ | s | q | dd
    · rw [hv] at hval
      simp at hval
    · rw [hv] at hval
      have hval2 : (match pyFloat? s with
          | some q => sqliteAtof s.data == q
          | none => false) = true := hval
      rcases hq : pyFloat? s with _ | q
      · rw [hq] at hval2
        simp at hval2
      · rw [hq] at hval2
        have hcast : sqliteAtof s.data = q := by simpa using hval2
        rcases hm : fcGet cfg "min" with _ | p <;>
          rcases hM : fcGet cfg "max" with _ | P <;>
          simp [SamplingRule.matches, sqlEvalFilter, hnt, hv, hq, hcol, hce, hm,
            hM, rangeOkNum_sql cfg q hmin hmax, sqlCastReal, hcast]
    · rcases hm : fcGet cfg "min" with _ | p <;>
        rcases hM : fcGet cfg "max" with _ | P <;>
        simp [SamplingRule.matches, sqlEvalFilter, hnt, hv, hcol, hce, hm, hM,
          rangeOkNum_sql cfg q hmin hmax, sqlCastReal]
    · rw [hv] at hval
      simp at hval
theorem sqlGeText_fmtISO (d : Date) (o : Option ConfigVal) :
    (match o with
     | some (.date b) => sqlGeText (Value.str (fmtISO d)) (fmtISOChars b)
     | _ => true) =
    (match o with
     | some (.date b) => bytesLe (fmtISOChars b) (fmtISOChars d)
     | _ => true) := by
  rcases o with _ | v
  · rfl
  · cases v <;> rfl

theorem sqlLeText_fmtISO (d : Date) (o : Option ConfigVal) :
    (match o with
     | some (.date b) => sqlLeText (Value.str (fmtISO d)) (fmtISOChars b)
     | _ => true) =
    (match o with
     | some (.date b) => bytesLe (fmtISOChars d) (fmtISOChars b)
     | _ => true) := by
  rcases o with _ | v
  · rfl
  · cases v <;> rfl

theorem matches_sql_date (nm col : String) (k : Nat) (cfg : FilterConfig)
    (row : Row)
    (hcol : col.isEmpty = false)
    (hfrom : isOptValidDate (fcGet cfg "from") = true)
    (hto : isOptValidDate (fcGet cfg "to") = true)
    (hval : wfSqlValue ColumnType.DATE (row.get col) = true) :
    SamplingRule.matches ⟨nm, col, ColumnType.DATE, cfg, k⟩ row
      = sqlEvalFilter ⟨col, ColumnType.DATE, cfg⟩ row := by
  have hnt : ColumnType.DATE ≠ ColumnType.TEXT := by decide
  have hnn : ColumnType.DATE ≠ ColumnType.NUMBER := by decide
  rw [wfSqlValue_date] at hval
  rcases hv : row.get col with _ | s | q | dd
  · rw [hv] at hval
    simp at hval
  · rw [hv] at hval
    have hval2 : (match parseDateISO s with
        | some d => fmtISO d == s
        | none => false) = true := hval
    rcases hp : parseDateISO s with _ | d
    · rw [hp] at hval2
      simp at hval2
    · rw [hp] at hval2
      have hsd : fmtISO d = s := by simpa using hval2
      have hdv : Date.ValidB d = true := parseDateISO_valid s d hp
      subst hsd
      by_cases hc : cfg = []
      · subst hc
        simp [SamplingRule.matches, sqlEvalFilter, hnt, hnn, hv, hp, rangeOkDate,
          rangeToDate, fcGet]
      · have hce : cfg.isEmpty = false := by
          cases cfg with
          | nil => exact absurd rfl hc
          | cons a l => rfl
        simp [SamplingRule.matches, sqlEvalFilter, hnt, hnn, hv, hp, hcol, hce,
          rangeOkDate_sql cfg d hdv hfrom hto, sqlGeText_fmtISO d, sqlLeText_fmtISO d]
  · rw [hv] at hval
    simp at hval
  · rw [hv] at hval
    simp at hval
theorem matches_sql_other (nm col t : String) (k : Nat) (cfg : FilterConfig)
    (row : Row)
    (h1 : t ≠ ColumnType.TEXT) (h2 : t ≠ ColumnType.NUMBER)
    (h3 : t ≠ ColumnType.DATE) :
    SamplingRule.matches ⟨nm, col, t, cfg, k⟩ row
      = sqlEvalFilter ⟨col, t, cfg⟩ row := by
  simp [SamplingRule.matches, sqlEvalFilter, h1, h2, h3]

/-- C3: under well-typedness — the filter column is named, its configuration
bounds are of the column's type (numbers for NUMBER, representable datetimes
for DATE, a wildcard-free ASCII pattern for TEXT), and the row value stored
in the column is an ASCII string for TEXT, a number or a float-parsable
string read identically by SQLite for NUMBER, and a canonical `YYYY-MM-DD`
string for DATE — the in-memory `SamplingRule.matches` and SQLite's
evaluation of the `to_sql_where` fragment agree on every row, across all
four config shapes. The ASCII restriction on TEXT is necessary: Python's
`str.lower()` lowercases all of Unicode while `LIKE` folds ASCII only.
(Without these typing assumptions the two sides diverge; see the
counterexample.) -/
theorem C3_matches_sql_equiv (nm col t : String) (k : Nat) (cfg : FilterConfig)
    (row : Row)
    (hcol : col.isEmpty = false)
    (hcfg : wfSqlCfg t cfg = true)
    (hval : wfSqlValue t (row.get col) = true) :
    SamplingRule.matches ⟨nm, col, t, cfg, k⟩ row
      = sqlEvalFilter ⟨col, t, cfg⟩ row := by
  by_cases h1 : t = ColumnType.TEXT
  · subst h1
    rw [wfSqlCfg_text, Bool.and_eq_true] at hcfg
    rw [wfSqlValue_text] at hval
    rcases hv : row.get col with _ | s | q | dd
    · rw [hv] at hval
      simp at hval
    · rw [hv] at hval
      have hsa : asciiOnly s.data = true := hval
      exact matches_sql_text nm col k cfg row s hcol hcfg.1 hcfg.2 hsa hv
    · rw [hv] at hval
      simp at hval
    · rw [hv] at hval
      simp at hval
  · by_cases h2 : t = ColumnType.NUMBER
    · subst h2
      rw [wfSqlCfg_number, Bool.and_eq_true] at hcfg
      exact matches_sql_number nm col k cfg row hcol hcfg.1 hcfg.2 hval
    · by_cases h3 : t = ColumnType.DATE
      · subst h3
        rw [wfSqlCfg_date, Bool.and_eq_true] at hcfg
        exact matches_sql_date nm col k cfg row hcol hcfg.1 hcfg.2 hval
      · exact matches_sql_other nm col t k cfg row h1 h2 h3

/-- C3: counterexample to the unconditional claim, in two parts. First, on a
NUMBER filter with `min = 0` and a row whose column holds the non-numeric
string `"abc"`, `matches` returns `False` (the `float()` call raises, caught
to `False`) while the SQL fragment `CAST(c AS REAL) >= ?` keeps the row
(SQLite converts non-numeric text to `0.0`). Second, even on a well-typed
TEXT `contains` filter the two sides diverge on non-ASCII text: for pattern
`"münchen"` and value `"MÜNCHEN"`, Python's full-Unicode `str.lower()` makes
`matches` accept the row while SQLite's ASCII-only `LIKE` folding rejects it
— which is why the amended equivalence restricts TEXT data to ASCII. -/
theorem C3_counterexample :
    (SamplingRule.matches
        ⟨"r", "amount", ColumnType.NUMBER, [("min", ConfigVal.num 0)], 1⟩
        [("amount", Value.str "abc")] = false ∧
     sqlEvalFilter ⟨"amount", ColumnType.NUMBER, [("min", ConfigVal.num 0)]⟩
        [("amount", Value.str "abc")] = true) ∧
    (SamplingRule.matches
        ⟨"r", "city", ColumnType.TEXT,
         [("type", ConfigVal.str "contains"),
          ("pattern", ConfigVal.str "münchen")], 1⟩
        [("city", Value.str "MÜNCHEN")] = true ∧
     sqlEvalFilter
        ⟨"city", ColumnType.TEXT,
         [("type", ConfigVal.str "contains"),
          ("pattern", ConfigVal.str "münchen")]⟩
        [("city", Value.str "MÜNCHEN")] = false) := by
  refine ⟨⟨rfl, by decide⟩, ⟨by decide, ?_⟩⟩
  have hred : sqlEvalFilter
      ⟨"city", ColumnType.TEXT,
       [("type", ConfigVal.str "contains"),
        ("pattern", ConfigVal.str "münchen")]⟩
      [("city", Value.str "MÜNCHEN")]
      = sqlLike ('%' :: ("münchen".data ++ ['%'])) "MÜNCHEN".data := rfl
  rw [hred, sqlLike_infix "münchen".data (by decide) "MÜNCHEN".data]
  decide

/-- Witness for C3's amended theorem at a concrete TEXT `contains` filter. -/
theorem C3_witness :
    SamplingRule.matches
        ⟨"r", "t", ColumnType.TEXT,
         [("type", ConfigVal.str "contains"), ("pattern", ConfigVal.str "GmbH")], 1⟩
        [("t", Value.str "x Gmbh y")]
      = sqlEvalFilter
        ⟨"t", ColumnType.TEXT,
         [("type", ConfigVal.str "contains"), ("pattern", ConfigVal.str "GmbH")]⟩
        [("t", Value.str "x Gmbh y")] :=
  C3_matches_sql_equiv "r" "t" ColumnType.TEXT 1
    [("type", ConfigVal.str "contains"), ("pattern", ConfigVal.str "GmbH")]
    [("t", Value.str "x Gmbh y")] (by decide) (by decide) (by decide)
end SamplingTool
